import Mathlib

/-!
# simple-htop-linux: the resource-snapshot core

A shallow embedding of `linux_parser.cpp`, `processor.cpp`, `process.cpp` and
`system.cpp`, and the properties of the specification checked against it.

Conventions of the embedding:

* text is `String`; the scanning functions work on its list of characters;
* a C++ `long` is an `Int` kept in the 64-bit range by `wrapLong` after every
  arithmetic operation (signed overflow, undefined in C++, is modelled as the
  two's-complement wrap-around of the machine);
* a C++ `float` is modelled by the exact rational number it approximates:
  rounding is outside the model, except in `floatQuotient`, which takes the
  rounding as a parameter bound by `FloatRounding`;
* a function that can leave through a C++ exception returns `Except CppError`;
* whatever the program reads from the machine (files under `/proc`, the clock
  tick constant, the C library's float reader) is a field of `Host`;
* `std::sort` is a parameter of `System.Processes`: the theorems hold for every
  routine that meets the contract the C++ standard gives it (`StdSort`), and the
  algorithm of libstdc++ is transcribed in `Libstdcxx` for a concrete run;
* `System.ProcessesWith` is `System.Processes` with the utilization method its
  comparator calls as a parameter, for the statements on the ordering.
-/

namespace Htop

/-! ## The C++ library pieces the program calls -/

/-- The two exceptions `std::stol` and `std::stof` can raise. -/
inductive CppError where
  | invalid_argument
  | out_of_range
  deriving DecidableEq, Repr

/-- Largest value of a 64-bit `long`. -/
def LONG_MAX : Int := 9223372036854775807

/-- Smallest value of a 64-bit `long`. -/
def LONG_MIN : Int := -9223372036854775808

/-- Reduction of an integer to the 64-bit two's-complement range. -/
def wrapLong (x : Int) : Int := (x + 9223372036854775808) % 18446744073709551616 - 9223372036854775808

/-- Addition of two `long` values. -/
def addLong (a b : Int) : Int := wrapLong (a + b)

/-- Subtraction of two `long` values. -/
def subLong (a b : Int) : Int := wrapLong (a - b)

/-- Division of two `long` values: the quotient is truncated toward zero.
Division by zero, undefined in C++, gives 0 here. -/
def divLong (a b : Int) : Int := wrapLong (Int.tdiv a b)

/-- The predicate `std::isspace` of the "C" locale. -/
def isspace (c : Char) : Bool := c.toNat = 32 || (9 ≤ c.toNat && c.toNat ≤ 13)

/-- Tokens of a character list, split on runs of whitespace; `cur` holds the
characters of the token being read, last one first. -/
def tokensFrom : List Char → List Char → List String
  | cur, [] => if cur.isEmpty then [] else [String.mk cur.reverse]
  | cur, c :: cs =>
    if isspace c then
      (if cur.isEmpty then tokensFrom [] cs else String.mk cur.reverse :: tokensFrom [] cs)
    else tokensFrom (c :: cur) cs

/-- The helper `SplitString`: the whitespace-separated tokens that
`std::istream_iterator<string>` yields. -/
def SplitString (str : String) : List String := tokensFrom [] str.data

/-- The helper `ReadLine` applied to a file with the given content (`none` when
the file cannot be opened): `std::getline` keeps the characters before the
first newline, and leaves the empty string when the file is empty. -/
def ReadLine (file : Option String) : Option String :=
  file.map (fun s => String.mk (s.data.takeWhile (fun c => c != '\n')))

/-- Value of a run of decimal digits. -/
def digitsVal (ds : List Char) : Nat := ds.foldl (fun acc c => 10 * acc + (c.toNat - 48)) 0

/-- The sign and the digit run that `strtol` reads in base 10: leading
whitespace is skipped, one sign is accepted, the digits that follow are taken
and everything after them is ignored. -/
def scanLong (cs : List Char) : Bool × List Char :=
  match cs.dropWhile isspace with
  | '-' :: r => (true, r.takeWhile Char.isDigit)
  | '+' :: r => (false, r.takeWhile Char.isDigit)
  | r => (false, r.takeWhile Char.isDigit)

/-- The call `std::stol(str)`: `invalid_argument` when no digit can be read,
`out_of_range` when the number does not fit in a `long`. -/
def stol (str : String) : Except CppError Int :=
  let (neg, ds) := scanLong str.data
  if ds.isEmpty then Except.error CppError.invalid_argument
  else
    let v : Int := if neg then -(digitsVal ds : Int) else (digitsVal ds : Int)
    if v < LONG_MIN ∨ LONG_MAX < v then Except.error CppError.out_of_range
    else Except.ok v

/-- The loop of `Processor::Utilization` that converts every string with
`std::stol` and pushes the value; the first failing conversion leaves the loop
with its exception. -/
def stolAll : List String → Except CppError (List Int)
  | [] => Except.ok []
  | s :: ss =>
    match stol s with
    | Except.error e => Except.error e
    | Except.ok v =>
      match stolAll ss with
      | Except.error e => Except.error e
      | Except.ok vs => Except.ok (v :: vs)

/-- What `istream >> long` stores in its target when the stream holds `cs`:
`none` when the stream ends before any non-blank character (the target is left
untouched), otherwise the number read, 0 when there is no digit and the
nearest `long` bound on overflow. -/
def extractLong (cs : List Char) : Option Int :=
  match cs.dropWhile isspace with
  | [] => none
  | r =>
    let (neg, ds) := scanLong r
    if ds.isEmpty then some 0
    else
      let v : Int := if neg then -(digitsVal ds : Int) else (digitsVal ds : Int)
      if v < LONG_MIN then some LONG_MIN
      else if LONG_MAX < v then some LONG_MAX
      else some v

/-- The sign and digits of a number with the characters that follow them. -/
def afterLong : List Char → List Char
  | '-' :: r => r.dropWhile Char.isDigit
  | '+' :: r => r.dropWhile Char.isDigit
  | r => r.dropWhile Char.isDigit

/-- A successful extraction `stream >> value` of a `long`: the value and the
characters left in the stream. `none` when the extraction fails (end of stream,
no digit, or a number that does not fit), which puts the stream in its failed
state. -/
def readLong (cs : List Char) : Option (Int × List Char) :=
  match cs.dropWhile isspace with
  | [] => none
  | r =>
    let (neg, ds) := scanLong r
    if ds.isEmpty then none
    else
      let v : Int := if neg then -(digitsVal ds : Int) else (digitsVal ds : Int)
      if v < LONG_MIN ∨ LONG_MAX < v then none
      else some (v, afterLong r)

/-- The extraction `stream >> str` of a `std::string`: leading whitespace is
skipped and the characters up to the next whitespace are taken; the characters
left in the stream come with them. `none` when the stream ends first. -/
def readToken (cs : List Char) : Option (String × List Char) :=
  match cs.dropWhile isspace with
  | [] => none
  | r => some (String.mk (r.takeWhile (fun c => !isspace c)), r.dropWhile (fun c => !isspace c))

/-- The lines that a loop `while (std::getline(stream, line))` sees; `cur` holds
the characters of the line being read, last one first. A last line without a
newline counts when it is not empty. -/
def linesFrom : List Char → List Char → List (List Char)
  | cur, [] => if cur.isEmpty then [] else [cur.reverse]
  | cur, c :: cs => if c = '\n' then cur.reverse :: linesFrom [] cs else linesFrom (c :: cur) cs

/-- The lines of a text, as `std::getline` yields them. -/
def getlines (content : String) : List (List Char) := linesFrom [] content.data

/-- Largest value of a 32-bit `int`. -/
def INT_MAX : Int := 2147483647

/-- Smallest value of a 32-bit `int`. -/
def INT_MIN : Int := -2147483648

/-- The call `std::stoi(str)`: as `std::stol`, the number having to fit in an
`int`. -/
def stoi (str : String) : Except CppError Int :=
  let (neg, ds) := scanLong str.data
  if ds.isEmpty then Except.error CppError.invalid_argument
  else
    let v : Int := if neg then -(digitsVal ds : Int) else (digitsVal ds : Int)
    if v < INT_MIN ∨ INT_MAX < v then Except.error CppError.out_of_range
    else Except.ok v

/-- The call `std::to_string` on an integer: its decimal digits, after a minus
sign when it is negative. -/
def to_string (v : Int) : String :=
  if v < 0 then String.mk ('-' :: (Nat.repr v.natAbs).data) else Nat.repr v.natAbs

/-- The number of binary digits of a natural number. -/
def bitLength : Nat → Nat → Nat
  | 0, _ => 0
  | steps + 1, n => if n = 0 then 0 else bitLength steps (n / 2) + 1

/-- A natural number rounded to the nearest multiple of `2 ^ e`, a tie going to
the even multiple. -/
def roundToMultiple (a e : Nat) : Nat :=
  let q := a / 2 ^ e
  let r := a % 2 ^ e
  if 2 * r < 2 ^ e then q * 2 ^ e
  else if 2 ^ e < 2 * r then (q + 1) * 2 ^ e
  else if q % 2 = 0 then q * 2 ^ e
  else (q + 1) * 2 ^ e

/-- The conversion `static_cast<double>(value)` of a `long`: the value itself
when it has at most 53 binary digits, otherwise the nearest number with 53
significant binary digits, a tie going to the even one. The result is an
integer. -/
def doubleOfLong (v : Int) : Int :=
  let a := v.natAbs
  let bits := bitLength a a
  let rounded := if bits ≤ 53 then a else roundToMultiple a (bits - 53)
  if v < 0 then -(rounded : Int) else (rounded : Int)

/-- The number of hundredths nearest to `num / den` (`den > 0`), a tie going to
the even number: the rounding of a stream in `std::fixed` notation with
precision 2. -/
def hundredths (num den : Nat) : Nat :=
  let q := 100 * num / den
  let r := 100 * num % den
  if 2 * r < den then q else if den < 2 * r then q + 1 else if q % 2 = 0 then q else q + 1

/-- The text a stream in `std::fixed` notation with precision 2 writes for the
number `num / den` (`den > 0`): the hundredths nearest to it, two of their
digits after the point, behind a minus sign when the number is negative. -/
def formatFixed2 (num : Int) (den : Nat) : String :=
  let n := hundredths num.natAbs den
  let body := (Nat.repr (n / 100)).data ++ ['.', Nat.digitChar (n % 100 / 10), Nat.digitChar (n % 10)]
  String.mk (if num < 0 then '-' :: body else body)

/-! ## The machine the program runs on -/

/-- Everything the program reads from outside. A file is `none` when it cannot
be opened. -/
structure Host where
  /-- Content of `/proc/stat`. -/
  stat : Option String
  /-- Content of `/proc/uptime`. -/
  uptime : Option String
  /-- Content of `/proc/<pid>/stat`. -/
  pidStat : Int → Option String
  /-- The value of `sysconf(_SC_CLK_TCK)`. -/
  clkTck : Int
  /-- The value an uninitialised `long` local happens to hold. -/
  uninitLong : Int
  /-- The call `std::stof` of the C++ library on a token. -/
  stof : String → Except CppError ℚ
  /-- Content of `/proc/meminfo`. -/
  meminfo : Option String
  /-- Content of `/etc/os-release`. -/
  osRelease : Option String
  /-- Content of `/proc/<pid>/status`. -/
  pidStatus : Int → Option String

/-! ## linux_parser.cpp -/

namespace LinuxParser

/-- The system uptime `LinuxParser::UpTime()`: the `long` read from the first
line of `/proc/uptime`, 0 when the file cannot be opened. -/
def UpTime (h : Host) : Int :=
  match ReadLine h.uptime with
  | none => 0
  | some line =>
    match extractLong line.data with
    | none => h.uninitLong
    | some v => v

/-- The total `LinuxParser::Jiffies()`. -/
def Jiffies (h : Host) : Except CppError Int :=
  match ReadLine h.stat with
  | none => Except.ok 0
  | some line =>
    let values := SplitString line
    if values.length < 8 then Except.ok 0
    else do
      let v1 ← stol (values.getD 1 "")
      let v2 ← stol (values.getD 2 "")
      let v3 ← stol (values.getD 3 "")
      let v4 ← stol (values.getD 4 "")
      let v5 ← stol (values.getD 5 "")
      let v6 ← stol (values.getD 6 "")
      let v7 ← stol (values.getD 7 "")
      pure (addLong (addLong (addLong (addLong (addLong (addLong v1 v2) v3) v4) v5) v6) v7)

/-- The system-wide `LinuxParser::ActiveJiffies()`. -/
def ActiveJiffies (h : Host) : Except CppError Int :=
  match ReadLine h.stat with
  | none => Except.ok 0
  | some line =>
    let values := SplitString line
    if values.length < 8 then Except.ok 0
    else do
      let v1 ← stol (values.getD 1 "")
      let v2 ← stol (values.getD 2 "")
      let v3 ← stol (values.getD 3 "")
      let v6 ← stol (values.getD 6 "")
      let v7 ← stol (values.getD 7 "")
      pure (addLong (addLong (addLong (addLong v1 v2) v3) v6) v7)

/-- The function `LinuxParser::IdleJiffies()`. With 5 tokens the read of
`values[5]` is out of range in the source; it is given the empty string here. -/
def IdleJiffies (h : Host) : Except CppError Int :=
  match ReadLine h.stat with
  | none => Except.ok 0
  | some line =>
    let values := SplitString line
    if values.length < 5 then Except.ok 0
    else do
      let v4 ← stol (values.getD 4 "")
      let v5 ← stol (values.getD 5 "")
      pure (addLong v4 v5)

/-- The system-wide `LinuxParser::CpuUtilization()`: the tokens of the first
line of `/proc/stat` after the label `cpu`. -/
def CpuUtilization (h : Host) : List String :=
  match ReadLine h.stat with
  | none => []
  | some line =>
    match SplitString line with
    | [] => []
    | label :: rest => if label != "cpu" then [] else rest

/-- The per-process `LinuxParser::ActiveJiffies(int pid)`. -/
def ActiveJiffiesPid (h : Host) (pid : Int) : Except CppError Int :=
  match ReadLine (h.pidStat pid) with
  | none => Except.ok 0
  | some line =>
    let values := SplitString line
    if values.length < 17 then Except.ok 0
    else do
      let v13 ← stol (values.getD 13 "")
      let v14 ← stol (values.getD 14 "")
      let v15 ← stol (values.getD 15 "")
      let v16 ← stol (values.getD 16 "")
      pure (addLong (addLong (addLong v13 v14) v15) v16)

/-- The per-process `LinuxParser::CpuUtilization(int pid)`: four strings on
every path. -/
def CpuUtilizationPid (h : Host) (pid : Int) : List String :=
  match ReadLine (h.pidStat pid) with
  | none => ["0", "0", "0", "0"]
  | some line =>
    let cpuValues := SplitString line
    if cpuValues.length < 17 then ["0", "0", "0", "0"]
    else [cpuValues.getD 13 "", cpuValues.getD 14 "", cpuValues.getD 15 "", cpuValues.getD 16 ""]

/-- The per-process `LinuxParser::UpTime(int pid)`. -/
def UpTimePid (h : Host) (pid : Int) : Except CppError Int :=
  match ReadLine (h.pidStat pid) with
  | none => Except.ok 0
  | some line =>
    let values := SplitString line
    if values.length ≤ 21 then Except.ok 0
    else do
      let start_time ← stol (values.getD 21 "")
      let system_uptime := UpTime h
      let clock_ticks := h.clkTck
      pure (subLong system_uptime (divLong start_time clock_ticks))

/-- The five counters `LinuxParser::MemoryUtilization()` collects, all 0 at
first. -/
structure MemCounters where
  memTotal : Int
  memAvailable : Int
  memFree : Int
  buffers : Int
  cached : Int
  deriving DecidableEq, Repr

/-- One extraction `memInfoFile >> counter`: the value the counter holds after
it and, when the extraction succeeded, the characters left in the stream. -/
def readCounter (old : Int) (cs : List Char) : Int × Option (List Char) :=
  match readLong cs with
  | some (v, rest) => (v, some rest)
  | none =>
    match extractLong cs with
    | none => (old, none)
    | some v => (v, none)

/-- The loop `while (memInfoFile >> key)` of `MemoryUtilization()`. A failed
extraction of a number leaves the stream failed, which ends the loop. Every
turn takes at least one character, so `steps` above the number of characters
never runs out. -/
def memLoop : Nat → List Char → MemCounters → MemCounters
  | 0, _, m => m
  | steps + 1, cs, m =>
    match readToken cs with
    | none => m
    | some (key, r) =>
      if key = "MemTotal:" then
        match readCounter m.memTotal r with
        | (v, some rest) =>
          memLoop steps rest (MemCounters.mk v m.memAvailable m.memFree m.buffers m.cached)
        | (v, none) => MemCounters.mk v m.memAvailable m.memFree m.buffers m.cached
      else if key = "MemAvailable:" then
        match readCounter m.memAvailable r with
        | (v, some rest) =>
          memLoop steps rest (MemCounters.mk m.memTotal v m.memFree m.buffers m.cached)
        | (v, none) => MemCounters.mk m.memTotal v m.memFree m.buffers m.cached
      else if key = "MemFree:" then
        match readCounter m.memFree r with
        | (v, some rest) =>
          memLoop steps rest (MemCounters.mk m.memTotal m.memAvailable v m.buffers m.cached)
        | (v, none) => MemCounters.mk m.memTotal m.memAvailable v m.buffers m.cached
      else if key = "Buffers:" then
        match readCounter m.buffers r with
        | (v, some rest) =>
          memLoop steps rest (MemCounters.mk m.memTotal m.memAvailable m.memFree v m.cached)
        | (v, none) => MemCounters.mk m.memTotal m.memAvailable m.memFree v m.cached
      else if key = "Cached:" then
        match readCounter m.cached r with
        | (v, some rest) =>
          memLoop steps rest (MemCounters.mk m.memTotal m.memAvailable m.memFree m.buffers v)
        | (v, none) => MemCounters.mk m.memTotal m.memAvailable m.memFree m.buffers v
      else memLoop steps r m

/-- The counters `MemoryUtilization()` holds after its loop over a text. -/
def memScan (content : String) : MemCounters :=
  memLoop (content.data.length + 1) content.data (MemCounters.mk 0 0 0 0 0)

/-- The function `LinuxParser::MemoryUtilization()`. -/
def MemoryUtilization (h : Host) : ℚ :=
  match h.meminfo with
  | none => 0
  | some content =>
    let m := memScan content
    let memAvailable :=
      if m.memAvailable = 0 then addLong (addLong m.memFree m.buffers) m.cached
      else m.memAvailable
    if m.memTotal = 0 then 0
    else 1 - (memAvailable : ℚ) / (m.memTotal : ℚ)

/-- The test `iss >> key >> value` of `LinuxParser::Ram` on one line: the key
and the number when both extractions succeed. -/
def keyAndLong (line : List Char) : Option (String × Int) :=
  match readToken line with
  | none => none
  | some (key, r) =>
    match readLong r with
    | none => none
    | some (value, _) => some (key, value)

/-- The loop of `LinuxParser::Ram` over the lines of the status file. -/
def ramLines : List (List Char) → String
  | [] => "N/A"
  | line :: rest =>
    match keyAndLong line with
    | some (key, value) =>
      if key = "VmRSS:" then formatFixed2 (doubleOfLong value) 1024
      else ramLines rest
    | none => ramLines rest

/-- The function `LinuxParser::Ram(int pid)`. -/
def Ram (h : Host) (pid : Int) : String :=
  match h.pidStatus pid with
  | none => "N/A"
  | some content => ramLines (getlines content)

/-- The key that `std::getline(iss, key, '=')` reads from a line: the characters
before its first `=`, the whole line when it has none. -/
def lineKey (line : List Char) : String := String.mk (line.takeWhile (fun c => c != '='))

/-- The body of the loop of `LinuxParser::OperatingSystem` on one line: the
value returned, when there is one. `std::getline(iss, key, '=')` fails on an
empty line; when the line has no `=`, or nothing but whitespace after it, the
second `std::getline` fails. -/
def prettyName (line : List Char) : Option String :=
  if line.isEmpty then none
  else if lineKey line = "PRETTY_NAME" then
    match line.dropWhile (fun c => c != '=') with
    | [] => none
    | _ :: afterEq =>
      match afterEq.dropWhile isspace with
      | [] => none
      | value => some (String.mk (value.filter (fun c => c != '"')))
  else none

/-- The loop of `LinuxParser::OperatingSystem` over the lines of the file. -/
def osLines : List (List Char) → String
  | [] => "Unknown OS"
  | line :: rest =>
    match prettyName line with
    | some value => value
    | none => osLines rest

/-- The function `LinuxParser::OperatingSystem()`. -/
def OperatingSystem (h : Host) : String :=
  match h.osRelease with
  | none => "Unknown OS"
  | some content => osLines (getlines content)

end LinuxParser

/-! ## processor.cpp -/

/-- The two function-local statics of `Processor::Utilization`, the previous
sample; both start at 0. -/
structure SamplerState where
  prevTotalTime : Int
  prevActiveTime : Int
  deriving DecidableEq, Repr

/-- The sampler before its first call. -/
def SamplerState.fresh : SamplerState := SamplerState.mk 0 0

/-- One call of `Processor::Utilization()`: the value returned and the statics
after the call. -/
def Processor.Utilization (h : Host) (s : SamplerState) : Except CppError (ℚ × SamplerState) :=
  let cpuStrings := LinuxParser.CpuUtilization h
  if cpuStrings.length < 10 then Except.ok (0, s)
  else do
    let cpuTimes ← stolAll cpuStrings
    let user := cpuTimes.getD 0 0
    let nice := cpuTimes.getD 1 0
    let system := cpuTimes.getD 2 0
    let idle := cpuTimes.getD 3 0
    let iowait := cpuTimes.getD 4 0
    let irq := cpuTimes.getD 5 0
    let softirq := cpuTimes.getD 6 0
    let steal := cpuTimes.getD 7 0
    let activeTime := addLong (addLong (addLong (addLong (addLong user nice) system) irq) softirq) steal
    let totalTime := addLong (addLong activeTime idle) iowait
    let totalDiff := subLong totalTime s.prevTotalTime
    let activeDiff := subLong activeTime s.prevActiveTime
    pure (if totalDiff > 0 then (activeDiff : ℚ) / (totalDiff : ℚ) else 0,
      SamplerState.mk totalTime activeTime)

/-! ## process.cpp -/

/-- The members of a `Process` that `System::Processes` depends on. The display
strings `user_`, `command_` and `ram_` are filled by calls that return a string
on every path and take no part in what follows; they are left out. -/
structure Process where
  pid_ : Int
  cpuUtilization_ : List String
  upTime_ : Int
  deriving DecidableEq, Repr

namespace Process

/-- The method `Process::Update()`; it leaves through an exception when
`LinuxParser::UpTime(pid)` does. -/
def Update (h : Host) (p : Process) : Except CppError Process := do
  let cpuUtilization := LinuxParser.CpuUtilizationPid h p.pid_
  let upTime ← LinuxParser.UpTimePid h p.pid_
  pure (Process.mk p.pid_ cpuUtilization upTime)

/-- The constructor `Process::Process(int pid)`: `pid_` is set and `Update()`
fills the other members. -/
def construct (h : Host) (pid : Int) : Except CppError Process :=
  Update h (Process.mk pid [] h.uninitLong)

/-- The accessor `Process::Pid()`. -/
def Pid (p : Process) : Int := p.pid_

/-- The method `Process::CpuUtilization()`. -/
def CpuUtilization (h : Host) (p : Process) : Except CppError ℚ :=
  let cpuValues := LinuxParser.CpuUtilizationPid h p.pid_
  if cpuValues.length < 4 then Except.ok 0
  else do
    let utime ← h.stof (cpuValues.getD 0 "")
    let stime ← h.stof (cpuValues.getD 1 "")
    let cutime ← h.stof (cpuValues.getD 2 "")
    let cstime ← h.stof (cpuValues.getD 3 "")
    let systemUpTime := LinuxParser.UpTime h
    if cpuValues.length < 22 then pure 0
    else do
      let ticks ← stol (cpuValues.getD 21 "")
      let startTime := divLong ticks h.clkTck
      let processUpTime := subLong systemUpTime startTime
      if processUpTime ≤ 0 then pure 0
      else
        let totalTime := utime + stime + cutime + cstime
        pure (totalTime / (processUpTime : ℚ))

/-- The method `Process::Ram()`, as a function of the member `ram_` that
`Process::Update()` sets to `LinuxParser::Ram(pid_)`. Any exception of
`std::stoi` is caught. -/
def Ram (ram_ : String) : String :=
  match stoi ram_ with
  | Except.ok ramValue => to_string (Int.tdiv ramValue 1024)
  | Except.error _ => "0"

end Process

/-! ## format.cpp -/

/-- The function `Format::ElapsedTime(long seconds)`. -/
def Format.ElapsedTime (seconds : Int) : String :=
  if seconds = 0 then "00:00:00"
  else if seconds < 60 then "00:00:" ++ to_string seconds
  else
    let hours := Int.tdiv seconds 3600
    let minutes := Int.tdiv (Int.tmod seconds 3600) 60
    let sec := Int.tmod (Int.tmod seconds 3600) 60
    to_string hours ++ ":" ++ to_string minutes ++ ":" ++ to_string sec

/-! ## system.cpp -/

/-- The insertion `std::set<int>::insert`, the set being kept as the ascending
list of its elements (the order in which a `std::set` is iterated). -/
def setInsert (x : Int) : List Int → List Int
  | [] => [x]
  | y :: ys =>
    if x < y then x :: y :: ys
    else if x = y then y :: ys
    else y :: setInsert x ys

/-- A comparator that `std::sort` accepts: a strict weak ordering. -/
structure StrictWeak {α : Type} (lt : α → α → Bool) : Prop where
  irrefl : ∀ a, lt a a = false
  trans : ∀ a b c, lt a b = true → lt b c = true → lt a c = true
  incomp_trans : ∀ a b c, lt a b = false → lt b a = false → lt b c = false → lt c b = false →
    lt a c = false ∧ lt c a = false

/-- What the C++ standard promises of `std::sort` for such a comparator: the
result is a rearrangement of the input, and no element comes after one that the
comparator puts behind it. The order of equivalent elements is not fixed. -/
structure StdSort {α : Type} (sort : (α → α → Bool) → List α → List α) : Prop where
  perm : ∀ lt l, StrictWeak lt → List.Perm (sort lt l) l
  sorted : ∀ lt l, StrictWeak lt → List.Pairwise (fun a b => lt b a = false) (sort lt l)

namespace System

/-- The first loop of `System::Processes()`, over the live pids: the pid enters
`existingPids`, and `newProcesses` receives the tracked process with that pid
or, when there is none, a newly constructed one. -/
def collect (h : Host) (processes_ : List Process) :
    List Int → List Int × List Process → Except CppError (List Int × List Process)
  | [], acc => Except.ok acc
  | pid :: rest, (existingPids, newProcesses) =>
    match processes_.find? (fun process => process.Pid == pid) with
    | none =>
      match Process.construct h pid with
      | Except.error e => Except.error e
      | Except.ok p => collect h processes_ rest (setInsert pid existingPids, newProcesses ++ [p])
    | some p => collect h processes_ rest (setInsert pid existingPids, newProcesses ++ [p])

/-- The second loop of `System::Processes()`: after `processes_.clear()` a
process is constructed for every element of `existingPids`, in the set's order. -/
def rebuild (h : Host) : List Int → Except CppError (List Process)
  | [] => Except.ok []
  | pid :: rest =>
    match Process.construct h pid with
    | Except.error e => Except.error e
    | Except.ok p =>
      match rebuild h rest with
      | Except.error e => Except.error e
      | Except.ok ps => Except.ok (p :: ps)

/-- The utilization the comparator reads from a process; the value is only
used where `CpuUtilization()` returned. -/
def cpuOf (h : Host) (p : Process) : ℚ :=
  match p.CpuUtilization h with
  | Except.ok q => q
  | Except.error _ => 0

/-- The comparator of the sort, `a.CpuUtilization() > b.CpuUtilization()`. -/
def byCpu (h : Host) (a b : Process) : Bool := decide (cpuOf h a > cpuOf h b)

/-- The first exception `CpuUtilization()` raises on the processes of a list,
if any. -/
def cpuThrows (h : Host) : List Process → Option CppError
  | [] => none
  | p :: ps =>
    match p.CpuUtilization h with
    | Except.error e => some e
    | Except.ok _ => cpuThrows h ps

/-- The call `std::sort(processes_.begin(), processes_.end(), comparator)`,
for the library routine `sort`. With fewer than two elements no comparison is
made. With two or more every element is an operand of some comparison, so an
exception of `CpuUtilization()` on any of them leaves the sort; otherwise the
comparator is the pure function `byCpu`. -/
def sortByCpu (sort : (Process → Process → Bool) → List Process → List Process)
    (h : Host) (ps : List Process) : Except CppError (List Process) :=
  if ps.length < 2 then Except.ok ps
  else
    match cpuThrows h ps with
    | some e => Except.error e
    | none => Except.ok (sort (byCpu h) ps)

/-- The method `System::Processes()`, given the tracked `processes_` and the
list `pids` that `LinuxParser::Pids()` returned: the new `processes_`, which is
also the value returned. -/
def Processes (sort : (Process → Process → Bool) → List Process → List Process)
    (h : Host) (processes_ : List Process) (pids : List Int) : Except CppError (List Process) :=
  match collect h processes_ pids ([], []) with
  | Except.error e => Except.error e
  | Except.ok (existingPids, _) =>
    match rebuild h existingPids with
    | Except.error e => Except.error e
    | Except.ok fresh => sortByCpu sort h fresh

end System

/-- The sort that inserts each element, from the last to the first, before the
first element it need not follow; equivalent elements keep their order. -/
def insertionSort {α : Type} (lt : α → α → Bool) (l : List α) : List α :=
  List.insertionSort (fun a b => lt b a = false) l

/-! ## The `std::sort` of GCC's libstdc++ (`bits/stl_algo.h`, `bits/stl_heap.h`)

The sequence is a list and an iterator is a position in it. The loops of the
library that stop on a sentinel element take a bound on their number of steps,
the length of the sequence. -/

namespace Libstdcxx

/-- Comparison of the elements at two positions. -/
def compAt {α : Type} (comp : α → α → Bool) (l : List α) (i j : Nat) : Bool :=
  match l.get? i, l.get? j with
  | some x, some y => comp x y
  | _, _ => false

/-- The call `std::iter_swap` on two positions. -/
def iterSwap {α : Type} (l : List α) (i j : Nat) : List α :=
  match l.get? i, l.get? j with
  | some x, some y => (l.set i y).set j x
  | _, _ => l

/-- The routine `__move_median_to_first`. -/
def moveMedianToFirst {α : Type} (comp : α → α → Bool) (l : List α) (result a b c : Nat) :
    List α :=
  if compAt comp l a b then
    if compAt comp l b c then iterSwap l result b
    else if compAt comp l a c then iterSwap l result c
    else iterSwap l result a
  else if compAt comp l a c then iterSwap l result a
  else if compAt comp l b c then iterSwap l result c
  else iterSwap l result b

/-- The loop `while (comp(first, pivot)) ++first`. -/
def advanceFirst {α : Type} (comp : α → α → Bool) (l : List α) (pivot : Nat) : Nat → Nat → Nat
  | 0, first => first
  | steps + 1, first =>
    if compAt comp l first pivot then advanceFirst comp l pivot steps (first + 1) else first

/-- The loop `while (comp(pivot, last)) --last`. -/
def retreatLast {α : Type} (comp : α → α → Bool) (l : List α) (pivot : Nat) : Nat → Nat → Nat
  | 0, last => last
  | steps + 1, last =>
    if compAt comp l pivot last then retreatLast comp l pivot steps (last - 1) else last

/-- The routine `__unguarded_partition`: the sequence after the swaps and the
cut position. -/
def unguardedPartition {α : Type} (comp : α → α → Bool) (pivot : Nat) :
    Nat → List α → Nat → Nat → List α × Nat
  | 0, l, first, _ => (l, first)
  | steps + 1, l, first, last =>
    let first1 := advanceFirst comp l pivot l.length first
    let last1 := retreatLast comp l pivot l.length (last - 1)
    if first1 < last1 then
      unguardedPartition comp pivot steps (iterSwap l first1 last1) (first1 + 1) last1
    else (l, first1)

/-- The routine `__unguarded_partition_pivot`. -/
def unguardedPartitionPivot {α : Type} (comp : α → α → Bool) (l : List α) (first last : Nat) :
    List α × Nat :=
  let mid := first + (last - first) / 2
  let l1 := moveMedianToFirst comp l first (first + 1) mid (last - 1)
  unguardedPartition comp first l1.length l1 (first + 1) last

/-- The loop of `__push_heap`: the position where the value lands, and the
sequence after the parents moved down. -/
def pushHeapLoop {α : Type} (comp : α → α → Bool) (first topIndex : Nat) (value : α) :
    Nat → List α → Nat → List α × Nat
  | 0, l, holeIndex => (l, holeIndex)
  | steps + 1, l, holeIndex =>
    let parent := (holeIndex - 1) / 2
    match l.get? (first + parent) with
    | some p =>
      if holeIndex > topIndex && comp p value then
        pushHeapLoop comp first topIndex value steps (l.set (first + holeIndex) p) parent
      else (l, holeIndex)
    | none => (l, holeIndex)

/-- The routine `__push_heap`. -/
def pushHeap {α : Type} (comp : α → α → Bool) (l : List α) (first holeIndex topIndex : Nat)
    (value : α) : List α :=
  let (l1, hole) := pushHeapLoop comp first topIndex value l.length l holeIndex
  l1.set (first + hole) value

/-- The first loop of `__adjust_heap`: the sequence, the hole and the second
child after it. -/
def adjustHeapLoop {α : Type} (comp : α → α → Bool) (first len : Nat) :
    Nat → List α → Nat → Nat → List α × Nat × Nat
  | 0, l, holeIndex, secondChild => (l, holeIndex, secondChild)
  | steps + 1, l, holeIndex, secondChild =>
    if secondChild < (len - 1) / 2 then
      let child := 2 * (secondChild + 1)
      let child1 := if compAt comp l (first + child) (first + (child - 1)) then child - 1 else child
      match l.get? (first + child1) with
      | some x => adjustHeapLoop comp first len steps (l.set (first + holeIndex) x) child1 child1
      | none => (l, holeIndex, secondChild)
    else (l, holeIndex, secondChild)

/-- The routine `__adjust_heap`. -/
def adjustHeap {α : Type} (comp : α → α → Bool) (l : List α) (first holeIndex len : Nat)
    (value : α) : List α :=
  let (l1, hole1, secondChild) := adjustHeapLoop comp first len l.length l holeIndex holeIndex
  if len % 2 = 0 ∧ 2 ≤ len ∧ secondChild = (len - 2) / 2 then
    let child := 2 * (secondChild + 1)
    match l1.get? (first + (child - 1)) with
    | some x => pushHeap comp (l1.set (first + hole1) x) first (child - 1) holeIndex value
    | none => pushHeap comp l1 first hole1 holeIndex value
  else pushHeap comp l1 first hole1 holeIndex value

/-- The routine `__pop_heap`. -/
def popHeap {α : Type} (comp : α → α → Bool) (l : List α) (first last result : Nat) : List α :=
  match l.get? result, l.get? first with
  | some value, some top => adjustHeap comp (l.set result top) first 0 (last - first) value
  | _, _ => l

/-- The loop of `__make_heap`, from `parent` down to 0. -/
def makeHeapLoop {α : Type} (comp : α → α → Bool) (first len : Nat) : Nat → List α → List α
  | 0, l =>
    match l.get? first with
    | some value => adjustHeap comp l first 0 len value
    | none => l
  | p + 1, l =>
    match l.get? (first + (p + 1)) with
    | some value => makeHeapLoop comp first len p (adjustHeap comp l first (p + 1) len value)
    | none => l

/-- The routine `__make_heap`. -/
def makeHeap {α : Type} (comp : α → α → Bool) (l : List α) (first last : Nat) : List α :=
  if last - first < 2 then l
  else makeHeapLoop comp first (last - first) ((last - first - 2) / 2) l

/-- The loop of `__heap_select`, over the positions from `i` to `last`. -/
def heapSelectLoop {α : Type} (comp : α → α → Bool) (first middle last : Nat) :
    Nat → List α → Nat → List α
  | 0, l, _ => l
  | steps + 1, l, i =>
    if i < last then
      heapSelectLoop comp first middle last steps
        (if compAt comp l i first then popHeap comp l first middle i else l) (i + 1)
    else l

/-- The routine `__heap_select`. -/
def heapSelect {α : Type} (comp : α → α → Bool) (l : List α) (first middle last : Nat) : List α :=
  heapSelectLoop comp first middle last l.length (makeHeap comp l first middle) middle

/-- The routine `__sort_heap`. -/
def sortHeap {α : Type} (comp : α → α → Bool) (first : Nat) : Nat → List α → Nat → List α
  | 0, l, _ => l
  | steps + 1, l, last =>
    if last - first > 1 then
      sortHeap comp first steps (popHeap comp l first (last - 1) (last - 1)) (last - 1)
    else l

/-- The routine `__partial_sort`. -/
def partialSort {α : Type} (comp : α → α → Bool) (l : List α) (first middle last : Nat) : List α :=
  let l1 := heapSelect comp l first middle last
  sortHeap comp first l1.length l1 middle

/-- The routine `__introsort_loop`; each turn of its loop lowers the depth
limit, on which the recursion goes. -/
def introsortLoop {α : Type} (comp : α → α → Bool) : Nat → List α → Nat → Nat → List α
  | 0, l, first, last => if last - first > 16 then partialSort comp l first last last else l
  | depth + 1, l, first, last =>
    if last - first > 16 then
      let (l1, cut) := unguardedPartitionPivot comp l first last
      let l2 := introsortLoop comp depth l1 cut last
      introsortLoop comp depth l2 first cut
    else l

/-- The loop of `__unguarded_linear_insert`: the position where the value
lands, and the sequence after the greater elements moved up. -/
def linearInsertLoop {α : Type} (comp : α → α → Bool) (val : α) :
    Nat → List α → Nat → List α × Nat
  | 0, l, last => (l, last)
  | steps + 1, l, last =>
    match last, l.get? (last - 1) with
    | k + 1, some x =>
      if comp val x then linearInsertLoop comp val steps (l.set (k + 1) x) k else (l, k + 1)
    | _, _ => (l, last)

/-- The routine `__unguarded_linear_insert`. -/
def unguardedLinearInsert {α : Type} (comp : α → α → Bool) (l : List α) (last : Nat) : List α :=
  match l.get? last with
  | some val =>
    let (l1, pos) := linearInsertLoop comp val l.length l last
    l1.set pos val
  | none => l

/-- One turn of the loop of `__insertion_sort`, at position `i`. -/
def insertionStep {α : Type} (comp : α → α → Bool) (l : List α) (first i : Nat) : List α :=
  if compAt comp l i first then
    match l.get? i with
    | some val => l.take first ++ val :: ((l.drop first).take (i - first) ++ l.drop (i + 1))
    | none => l
  else unguardedLinearInsert comp l i

/-- The loop of `__insertion_sort`, over the positions from `i` to `last`. -/
def insertionLoop {α : Type} (comp : α → α → Bool) (first last : Nat) :
    Nat → List α → Nat → List α
  | 0, l, _ => l
  | steps + 1, l, i =>
    if i < last then insertionLoop comp first last steps (insertionStep comp l first i) (i + 1)
    else l

/-- The routine `__insertion_sort`. -/
def insertionSort {α : Type} (comp : α → α → Bool) (l : List α) (first last : Nat) : List α :=
  if first = last then l else insertionLoop comp first last l.length l (first + 1)

/-- The routine `__unguarded_insertion_sort`. -/
def unguardedInsertionSort {α : Type} (comp : α → α → Bool) (last : Nat) :
    Nat → List α → Nat → List α
  | 0, l, _ => l
  | steps + 1, l, i =>
    if i < last then unguardedInsertionSort comp last steps (unguardedLinearInsert comp l i) (i + 1)
    else l

/-- The routine `__final_insertion_sort`. -/
def finalInsertionSort {α : Type} (comp : α → α → Bool) (l : List α) (first last : Nat) : List α :=
  if last - first > 16 then
    let l1 := insertionSort comp l first (first + 16)
    unguardedInsertionSort comp last l1.length l1 (first + 16)
  else insertionSort comp l first last

/-- The loop of `__lg`: the number of halvings that bring `n` below 2. -/
def lgLoop : Nat → Nat → Nat
  | 0, _ => 0
  | steps + 1, n => if n < 2 then 0 else lgLoop steps (n / 2) + 1

/-- The function `std::__lg`, the binary logarithm rounded down. -/
def lg (n : Nat) : Nat := lgLoop n n

/-- The function `std::sort` on a whole sequence. -/
def sort {α : Type} (comp : α → α → Bool) (l : List α) : List α :=
  if l.length = 0 then l
  else
    let l1 := introsortLoop comp (lg l.length * 2) l 0 l.length
    finalInsertionSort comp l1 0 l.length

end Libstdcxx

/-- A value that fits in a `long`. -/
def InLong (x : Int) : Prop := LONG_MIN ≤ x ∧ x ≤ LONG_MAX

instance instDecidableInLong (x : Int) : Decidable (InLong x) := by
  unfold InLong
  infer_instance

/-- A float reader for the examples, used there on decimal integer tokens only:
on such a token `std::stof` gives the integer. -/
def stofOnIntegers (s : String) : Except CppError ℚ :=
  match stol s with
  | Except.ok v => Except.ok (v : ℚ)
  | Except.error e => Except.error e

/-- A machine for the examples: `/proc/stat` and the per-process stat files are
as given, `/proc/uptime` reads 1000 seconds and the clock ticks 100 times a
second. -/
def exampleHost (stat : String) (pidStat : Int → Option String) : Host :=
  Host.mk (some stat) (some "1000.52 33.00\n") pidStat 100 0 stofOnIntegers none none
    (fun _ => none)

/-- A machine of which only `/proc/meminfo` matters. -/
def meminfoHost (meminfo : String) : Host :=
  Host.mk none none (fun _ => none) 100 0 stofOnIntegers (some meminfo) none (fun _ => none)

/-- A machine of which only `/etc/os-release` matters. -/
def osHost (osRelease : String) : Host :=
  Host.mk none none (fun _ => none) 100 0 stofOnIntegers none (some osRelease) (fun _ => none)

/-- A machine of which only the status file of process 1 matters. -/
def statusHost (status : String) : Host :=
  Host.mk none none (fun _ => none) 100 0 stofOnIntegers none none
    (fun pid => if pid = 1 then some status else none)

/-- A machine of which only `/proc/stat` matters. -/
def statHost (stat : String) : Host := exampleHost stat (fun _ => none)

/-- Stat file of the example process 1: utime 100, stime 50, cutime 25, cstime
25 ticks in fields 14 to 17, start time 200 ticks in field 22. -/
def lifetimeStat (pid : Int) : Option String :=
  if pid = 1 then some "1 (a) S 0 0 0 0 0 0 0 0 0 0 100 50 25 25 0 0 0 0 200\n" else none

/-- Stat files of the example processes 1, 2, 3, 4 and 7, each a line of 22
fields; no other process exists. -/
def registryStat (pid : Int) : Option String :=
  if pid = 1 then some "1 (init) S 0 1 1 0 -1 0 0 0 0 0 30 10 0 0 20 0 1 0 5\n"
  else if pid = 2 then some "2 (kthreadd) S 0 0 0 0 -1 0 0 0 0 0 0 7 0 0 20 0 1 0 6\n"
  else if pid = 3 then some "3 (sh) S 1 3 3 0 -1 0 0 0 0 0 12 3 1 1 20 0 1 0 900\n"
  else if pid = 4 then some "4 (top) R 3 4 3 0 -1 0 0 0 0 0 90 40 0 0 20 0 1 0 9000\n"
  else if pid = 7 then some "7 (cat) S 3 7 3 0 -1 0 0 0 0 0 1 1 0 0 20 0 1 0 9900\n"
  else none

/-- Whether a call returned rather than left through an exception. -/
def returns {ε α : Type} : Except ε α → Bool
  | Except.ok _ => true
  | Except.error _ => false

/-- The processes 1, 2 and 3 as `System::Processes()` leaves them on the example
machine. -/
def tracked123 : List Process :=
  [Process.mk 1 ["30", "10", "0", "0"] 1000, Process.mk 2 ["0", "7", "0", "0"] 1000,
   Process.mk 3 ["12", "3", "1", "1"] 991]

/-- Stat file of process 1 with a letter in field 14 (utime) and in field 22
(start time); no other process exists. -/
def letterStat (pid : Int) : Option String :=
  if pid = 1 then some "1 (a) S 0 0 0 0 0 0 0 0 0 0 u 50 25 25 0 0 0 0 t\n" else none

/-- Stat file of process 1 with 5 fields only; no other process exists. -/
def shortStat (pid : Int) : Option String :=
  if pid = 1 then some "1 (a) S 0 0\n" else none

/-- One line of a memory-info text: a key, whitespace and the decimal digits of
a value, followed by the unit ` kB` when `unit` holds. -/
structure MemLine where
  key : List Char
  gap : List Char
  digits : List Char
  unit : Bool

/-- The characters of a line, without its newline. -/
def MemLine.body (l : MemLine) : List Char :=
  l.key ++ (l.gap ++ (l.digits ++ (if l.unit then " kB".data else [])))

/-- A line as the kernel writes it: the key is one word, the gap is whitespace
and the value is a number that fits in a `long`. -/
def MemLine.WellFormed (l : MemLine) : Prop :=
  l.key ≠ [] ∧ (∀ c ∈ l.key, isspace c = false)
  ∧ l.gap ≠ [] ∧ (∀ c ∈ l.gap, isspace c = true)
  ∧ l.digits ≠ [] ∧ (∀ c ∈ l.digits, c.isDigit = true)
  ∧ (digitsVal l.digits : Int) ≤ LONG_MAX

/-- The text made of the given lines, each ended by a newline. -/
def memText : List MemLine → List Char
  | [] => []
  | l :: ls => l.body ++ ('\n' :: memText ls)

/-- The value a memory-info text gives for a key: the value on the last line
with that key, and 0 when no line has it. -/
def memValue (key : String) (lines : List MemLine) : Int :=
  lines.foldl (fun acc l => if String.mk l.key = key then (digitsVal l.digits : Int) else acc) 0

/-- The counters after `value` was read for `key`. -/
def setCounter (key : String) (v : Int) (m : LinuxParser.MemCounters) : LinuxParser.MemCounters :=
  if key = "MemTotal:" then LinuxParser.MemCounters.mk v m.memAvailable m.memFree m.buffers m.cached
  else if key = "MemAvailable:" then
    LinuxParser.MemCounters.mk m.memTotal v m.memFree m.buffers m.cached
  else if key = "MemFree:" then
    LinuxParser.MemCounters.mk m.memTotal m.memAvailable v m.buffers m.cached
  else if key = "Buffers:" then
    LinuxParser.MemCounters.mk m.memTotal m.memAvailable m.memFree v m.cached
  else if key = "Cached:" then
    LinuxParser.MemCounters.mk m.memTotal m.memAvailable m.memFree m.buffers v
  else m

/-- The five keys `MemoryUtilization()` looks for. -/
def isMemKey (key : String) : Bool :=
  key = "MemTotal:" || key = "MemAvailable:" || key = "MemFree:" || key = "Buffers:"
    || key = "Cached:"

/-- Whether a line is well formed can be computed. -/
instance instDecidableWellFormed (l : MemLine) : Decidable l.WellFormed := by
  unfold MemLine.WellFormed
  infer_instance

/-- What is assumed of the rounding of a floating-point format: a larger
number never rounds below a smaller one, and 0 and 1 are numbers of the
format. -/
structure FloatRounding (rnd : ℚ → ℚ) : Prop where
  mono : ∀ x y, x ≤ y → rnd x ≤ rnd y
  zero : rnd 0 = 0
  one : rnd 1 = 1

/-- The expression `static_cast<float>(activeDiff) / totalDiff` of
`Processor::Utilization()` in a format with rounding `rnd`: both operands are
converted to the format and the quotient is rounded. -/
def floatQuotient (rnd : ℚ → ℚ) (activeDiff totalDiff : Int) : ℚ :=
  rnd (rnd (activeDiff : ℚ) / rnd (totalDiff : ℚ))

/-- Equality of results is decidable when equality of values is. -/
instance instDecidableEqExcept {ε α : Type} [DecidableEq ε] [DecidableEq α] :
    DecidableEq (Except ε α)
  | Except.ok a, Except.ok b =>
    if hab : a = b then isTrue (by rw [hab])
    else isFalse (by intro hc; cases hc; exact hab rfl)
  | Except.error a, Except.error b =>
    if hab : a = b then isTrue (by rw [hab])
    else isFalse (by intro hc; cases hc; exact hab rfl)
  | Except.ok _, Except.error _ => isFalse (by intro hc; cases hc)
  | Except.error _, Except.ok _ => isFalse (by intro hc; cases hc)

/-! ## Arithmetic of `long` -/

theorem wrapLong_eq_self {x : Int} (hx : InLong x) : wrapLong x = x := by
  unfold InLong LONG_MIN LONG_MAX at hx
  unfold wrapLong
  omega

theorem wrapLong_inLong (x : Int) : InLong (wrapLong x) := by
  unfold InLong LONG_MIN LONG_MAX wrapLong
  omega

theorem wrapLong_add_left (a b : Int) : wrapLong (wrapLong a + b) = wrapLong (a + b) := by
  unfold wrapLong
  omega

theorem wrapLong_add_right (a b : Int) : wrapLong (a + wrapLong b) = wrapLong (a + b) := by
  unfold wrapLong
  omega

theorem subLong_self (a : Int) : subLong a a = 0 := by
  unfold subLong wrapLong
  simp

/-! ## The converted counters -/

theorem stolAll_length : ∀ (cs : List String) (vs : List Int),
    stolAll cs = Except.ok vs → vs.length = cs.length
  | [], vs, hv => by
    simp only [stolAll, Except.ok.injEq] at hv
    rw [← hv]
    rfl
  | c :: cs, vs, hv => by
    unfold stolAll at hv
    cases hc : stol c with
    | error e => rw [hc] at hv; cases hv
    | ok v =>
      rw [hc] at hv
      cases hr : stolAll cs with
      | error e => rw [hr] at hv; cases hv
      | ok ws =>
        rw [hr] at hv
        simp only [Except.ok.injEq] at hv
        rw [← hv, List.length_cons, List.length_cons, stolAll_length cs ws hr]

theorem exists_eight_of_length {α : Type} (l : List α) (hl : 8 ≤ l.length) :
    ∃ a b c d e f g k more, l = a :: b :: c :: d :: e :: f :: g :: k :: more := by
  match l, hl with
  | a :: b :: c :: d :: e :: f :: g :: k :: more, _ => exact ⟨a, b, c, d, e, f, g, k, more, rfl⟩

theorem LinuxParser.CpuUtilization_of_line (h : Host) (line : String) (counters : List String)
    (hline : ReadLine h.stat = some line) (htok : SplitString line = "cpu" :: counters) :
    LinuxParser.CpuUtilization h = counters := by
  unfold LinuxParser.CpuUtilization
  rw [hline]
  simp only [htok]
  simp

/-! ## The sampler -/

theorem Processor.Utilization_rejects (h : Host) (s : SamplerState)
    (hlen : (LinuxParser.CpuUtilization h).length < 10) :
    Processor.Utilization h s = Except.ok (0, s) := by
  unfold Processor.Utilization
  simp only [hlen, if_true]

theorem Processor.Utilization_eq (h : Host) (s : SamplerState) (cs : List String)
    (user nice system idle iowait irq softirq steal : Int) (more : List Int)
    (hcs : LinuxParser.CpuUtilization h = cs) (hlen : 10 ≤ cs.length)
    (hnum : stolAll cs = Except.ok
      (user :: nice :: system :: idle :: iowait :: irq :: softirq :: steal :: more)) :
    Processor.Utilization h s = Except.ok
      (if subLong (wrapLong (user + nice + system + irq + softirq + steal + idle + iowait))
            s.prevTotalTime > 0
        then ((subLong (wrapLong (user + nice + system + irq + softirq + steal))
            s.prevActiveTime : Int) : ℚ) /
          ((subLong (wrapLong (user + nice + system + irq + softirq + steal + idle + iowait))
            s.prevTotalTime : Int) : ℚ)
        else 0,
       SamplerState.mk (wrapLong (user + nice + system + irq + softirq + steal + idle + iowait))
         (wrapLong (user + nice + system + irq + softirq + steal))) := by
  have hA : addLong (addLong (addLong (addLong (addLong user nice) system) irq) softirq) steal
      = wrapLong (user + nice + system + irq + softirq + steal) := by
    simp only [addLong, wrapLong_add_left]
  have hT : addLong (addLong (wrapLong (user + nice + system + irq + softirq + steal)) idle) iowait
      = wrapLong (user + nice + system + irq + softirq + steal + idle + iowait) := by
    simp only [addLong, wrapLong_add_left]
  unfold Processor.Utilization
  simp only [hcs, Nat.not_lt.mpr hlen, if_false, hnum]
  simp only [bind, Except.bind, pure, Except.pure, List.getD_cons_zero, List.getD_cons_succ, hA, hT]

/-! ## Claims on the system CPU sampler -/

/-- C2. One step of the system CPU sampler. For a first line of `/proc/stat`
made of `cpu` and at least 10 counters that `std::stol` converts, with
`active = user+nice+system+irq+softirq+steal` and `total = active+idle+iowait`
(sums and differences that fit in a `long`), `Processor::Utilization()` returns
`(active - prevActive) / (total - prevTotal)` when `total - prevTotal > 0` and
0 otherwise, and the stored sample becomes `(active, total)`. -/
theorem C2_sampler_step (h : Host) (s : SamplerState) (line : String) (counters : List String)
    (user nice system idle iowait irq softirq steal : Int) (more : List Int) (active total : Int)
    (hline : ReadLine h.stat = some line)
    (htok : SplitString line = "cpu" :: counters)
    (hlen : 10 ≤ counters.length)
    (hnum : stolAll counters = Except.ok
      (user :: nice :: system :: idle :: iowait :: irq :: softirq :: steal :: more))
    (hactive : active = user + nice + system + irq + softirq + steal)
    (htotal : total = active + idle + iowait)
    (hfitA : InLong active) (hfitT : InLong total)
    (hfitDA : InLong (active - s.prevActiveTime)) (hfitDT : InLong (total - s.prevTotalTime)) :
    Processor.Utilization h s = Except.ok
      (if total - s.prevTotalTime > 0
        then ((active - s.prevActiveTime : Int) : ℚ) / ((total - s.prevTotalTime : Int) : ℚ)
        else 0,
       SamplerState.mk total active) := by
  have hcs := LinuxParser.CpuUtilization_of_line h line counters hline htok
  rw [Processor.Utilization_eq h s counters user nice system idle iowait irq softirq steal more
    hcs hlen hnum]
  have hA : wrapLong (user + nice + system + irq + softirq + steal) = active := by
    rw [← hactive]; exact wrapLong_eq_self hfitA
  have hT : wrapLong (user + nice + system + irq + softirq + steal + idle + iowait) = total := by
    rw [← hactive, ← htotal]; exact wrapLong_eq_self hfitT
  rw [hA, hT]
  unfold subLong
  rw [wrapLong_eq_self hfitDA, wrapLong_eq_self hfitDT]

/-- C2, at a concrete reading: previous sample (active 3, total 10), counters
4 0 2 10 3 0 1 0 0 0, so active 7 and total 20: the call returns 4/10. -/
theorem C2_sampler_step_witness :
    Processor.Utilization (statHost "cpu  4 0 2 10 3 0 1 0 0 0\ncpu0 4 0 2 10 3 0 1 0 0 0\n")
      (SamplerState.mk 10 3) = Except.ok ((2 : ℚ) / 5, SamplerState.mk 20 7) := by
  have key := C2_sampler_step
    (statHost "cpu  4 0 2 10 3 0 1 0 0 0\ncpu0 4 0 2 10 3 0 1 0 0 0\n") (SamplerState.mk 10 3)
    "cpu  4 0 2 10 3 0 1 0 0 0" ["4", "0", "2", "10", "3", "0", "1", "0", "0", "0"]
    4 0 2 10 3 0 1 0 [0, 0] 7 20
    (by decide) (by decide) (by decide) (by decide) (by decide) (by decide)
    (by decide) (by decide) (by decide) (by decide)
  rw [key]
  norm_num

theorem ratio_eq_zero_iff (active total : Int) :
    (if total > 0 then (active : ℚ) / (total : ℚ) else 0) = 0 ↔ total ≤ 0 ∨ active = 0 := by
  by_cases ht : total > 0
  · have htq : (total : ℚ) ≠ 0 := by
      have : (0 : ℚ) < (total : ℚ) := by exact_mod_cast ht
      exact ne_of_gt this
    rw [if_pos ht, div_eq_zero_iff]
    constructor
    · intro hz
      rcases hz with ha | htz
      · right
        exact_mod_cast ha
      · exact absurd htz htq
    · intro hz
      rcases hz with hle | ha
      · omega
      · left
        exact_mod_cast ha
  · rw [if_neg ht]
    constructor
    · intro _
      left
      omega
    · intro _
      rfl

/-- C3, refuted. On a fresh sampler the first call with the line
`cpu 10 0 0 10 0 0 0 0 0 0` returns 10/20, not 0.0. -/
theorem C3_first_call_counterexample :
    Processor.Utilization (statHost "cpu 10 0 0 10 0 0 0 0 0 0\n") SamplerState.fresh
        = Except.ok ((1 : ℚ) / 2, SamplerState.mk 20 10)
      ∧ ((1 : ℚ) / 2 ≠ 0) := by
  constructor
  · rw [Processor.Utilization_eq (statHost "cpu 10 0 0 10 0 0 0 0 0 0\n") SamplerState.fresh
      ["10", "0", "0", "10", "0", "0", "0", "0", "0", "0"] 10 0 0 10 0 0 0 0 [0, 0]
      (by decide) (by decide) (by decide)]
    have hT : subLong (wrapLong (10 + 0 + 0 + 0 + 0 + 0 + 10 + 0))
        SamplerState.fresh.prevTotalTime = 20 := by decide
    have hA : subLong (wrapLong (10 + 0 + 0 + 0 + 0 + 0))
        SamplerState.fresh.prevActiveTime = 10 := by decide
    have hT1 : wrapLong (10 + 0 + 0 + 0 + 0 + 0 + 10 + 0) = 20 := by decide
    have hA1 : wrapLong (10 + 0 + 0 + 0 + 0 + 0) = 10 := by decide
    rw [hT, hA, hT1, hA1]
    norm_num
  · norm_num

/-- C3, amended. The first call on a fresh sampler returns 0.0 and leaves the
sampler fresh when the line is rejected (fewer than 10 counters, or a first
token other than `cpu`); for an accepted line it returns `active / total`, the
utilization since boot, when `total > 0` and 0.0 otherwise, and stores
`(active, total)`. On an accepted line the value returned is 0.0 exactly when
`total ≤ 0` or `active = 0`. -/
theorem C3_first_call_since_boot (h : Host) :
    ((LinuxParser.CpuUtilization h).length < 10 →
      Processor.Utilization h SamplerState.fresh = Except.ok (0, SamplerState.fresh))
    ∧ (∀ (user nice system idle iowait irq softirq steal : Int) (more : List Int)
        (active total : Int),
      10 ≤ (LinuxParser.CpuUtilization h).length →
      stolAll (LinuxParser.CpuUtilization h) = Except.ok
        (user :: nice :: system :: idle :: iowait :: irq :: softirq :: steal :: more) →
      active = user + nice + system + irq + softirq + steal →
      total = active + idle + iowait →
      InLong active → InLong total →
      Processor.Utilization h SamplerState.fresh = Except.ok
        (if total > 0 then (active : ℚ) / (total : ℚ) else 0, SamplerState.mk total active)
      ∧ ((if total > 0 then (active : ℚ) / (total : ℚ) else 0) = 0 ↔ total ≤ 0 ∨ active = 0)) := by
  constructor
  · intro hlen
    exact Processor.Utilization_rejects h SamplerState.fresh hlen
  · intro user nice system idle iowait irq softirq steal more active total hlen hnum hactive
      htotal hfitA hfitT
    refine ⟨?_, ratio_eq_zero_iff active total⟩
    rw [Processor.Utilization_eq h SamplerState.fresh (LinuxParser.CpuUtilization h)
      user nice system idle iowait irq softirq steal more rfl hlen hnum]
    have hA : wrapLong (user + nice + system + irq + softirq + steal) = active := by
      rw [← hactive]; exact wrapLong_eq_self hfitA
    have hT : wrapLong (user + nice + system + irq + softirq + steal + idle + iowait) = total := by
      rw [← hactive, ← htotal]; exact wrapLong_eq_self hfitT
    rw [hA, hT]
    have h0A : subLong active SamplerState.fresh.prevActiveTime = active := by
      unfold subLong SamplerState.fresh
      simp only [sub_zero]
      exact wrapLong_eq_self hfitA
    have h0T : subLong total SamplerState.fresh.prevTotalTime = total := by
      unfold subLong SamplerState.fresh
      simp only [sub_zero]
      exact wrapLong_eq_self hfitT
    rw [h0A, h0T]

/-- C3 as amended, at concrete readings: a line without the `cpu` label gives
0.0, the line `cpu 10 0 0 10 0 0 0 0 0 0` gives 10/20, and the line
`cpu 0 0 0 10 0 0 0 0 0 0`, accepted with total 10 and active 0, gives 0.0. -/
theorem C3_first_call_since_boot_witness :
    Processor.Utilization (statHost "intr 10 0 0 10 0 0 0 0 0 0\n") SamplerState.fresh
        = Except.ok (0, SamplerState.fresh)
      ∧ Processor.Utilization (statHost "cpu 10 0 0 10 0 0 0 0 0 0\n") SamplerState.fresh
        = Except.ok (if (20 : Int) > 0 then ((10 : Int) : ℚ) / ((20 : Int) : ℚ) else 0,
            SamplerState.mk 20 10)
      ∧ (Processor.Utilization (statHost "cpu 0 0 0 10 0 0 0 0 0 0\n") SamplerState.fresh
        = Except.ok (if (10 : Int) > 0 then ((0 : Int) : ℚ) / ((10 : Int) : ℚ) else 0,
            SamplerState.mk 10 0)
        ∧ ((if (10 : Int) > 0 then ((0 : Int) : ℚ) / ((10 : Int) : ℚ) else 0) = 0
            ↔ (10 : Int) ≤ 0 ∨ (0 : Int) = 0)) :=
  ⟨(C3_first_call_since_boot (statHost "intr 10 0 0 10 0 0 0 0 0 0\n")).1 (by decide),
   ((C3_first_call_since_boot (statHost "cpu 10 0 0 10 0 0 0 0 0 0\n")).2
      10 0 0 10 0 0 0 0 [0, 0] 10 20 (by decide) (by decide) (by decide) (by decide)
      (by decide) (by decide)).1,
   (C3_first_call_since_boot (statHost "cpu 0 0 0 10 0 0 0 0 0 0\n")).2
      0 0 0 10 0 0 0 0 [0, 0] 0 10 (by decide) (by decide) (by decide) (by decide)
      (by decide) (by decide)⟩

/-- C4. Two calls in a row on the same well-formed line (`cpu` and at least 10
counters that `std::stol` converts): whatever the sampler held before, the
first call returns and the second returns 0.0. -/
theorem C4_same_reading_twice (h : Host) (s : SamplerState) (line : String)
    (counters : List String) (values : List Int)
    (hline : ReadLine h.stat = some line)
    (htok : SplitString line = "cpu" :: counters)
    (hlen : 10 ≤ counters.length)
    (hnum : stolAll counters = Except.ok values) :
    ∃ r s1, Processor.Utilization h s = Except.ok (r, s1)
      ∧ Processor.Utilization h s1 = Except.ok (0, s1) := by
  have hcs := LinuxParser.CpuUtilization_of_line h line counters hline htok
  have hvl : 8 ≤ values.length := by
    rw [stolAll_length counters values hnum]; omega
  obtain ⟨user, nice, system, idle, iowait, irq, softirq, steal, more, hv⟩ :=
    exists_eight_of_length values hvl
  rw [hv] at hnum
  refine ⟨_, _, Processor.Utilization_eq h s counters user nice system idle iowait irq softirq
    steal more hcs hlen hnum, ?_⟩
  rw [Processor.Utilization_eq h _ counters user nice system idle iowait irq softirq
    steal more hcs hlen hnum]
  simp only [subLong_self, gt_iff_lt, lt_self_iff_false, if_false]

/-- C4, at a concrete reading, starting from a sampler that holds (active 3,
total 10). -/
theorem C4_same_reading_twice_witness :
    ∃ r s1, Processor.Utilization (statHost "cpu 4 0 2 10 3 0 1 0 0 0\n") (SamplerState.mk 10 3)
        = Except.ok (r, s1)
      ∧ Processor.Utilization (statHost "cpu 4 0 2 10 3 0 1 0 0 0\n") s1 = Except.ok (0, s1) :=
  C4_same_reading_twice (statHost "cpu 4 0 2 10 3 0 1 0 0 0\n") (SamplerState.mk 10 3)
    "cpu 4 0 2 10 3 0 1 0 0 0" ["4", "0", "2", "10", "3", "0", "1", "0", "0", "0"]
    [4, 0, 2, 10, 3, 0, 1, 0, 0, 0] (by decide) (by decide) (by decide) (by decide)

/-- C5, refuted. After the reading `cpu 100 0 0 0 0 0 0 0 0 0` the sampler holds
(active 100, total 100); the next reading `cpu 50 0 0 100 0 0 0 0 0 0`, whose
user counter went backwards while idle advanced, has total 150 and active 50,
and the call returns -50/50 = -1. -/
theorem C5_negative_counterexample :
    Processor.Utilization (statHost "cpu 100 0 0 0 0 0 0 0 0 0\n") SamplerState.fresh
        = Except.ok (1, SamplerState.mk 100 100)
      ∧ Processor.Utilization (statHost "cpu 50 0 0 100 0 0 0 0 0 0\n") (SamplerState.mk 100 100)
        = Except.ok (-1, SamplerState.mk 150 50)
      ∧ ((-1 : ℚ) < 0) := by
  refine ⟨?_, ?_, by norm_num⟩
  · rw [Processor.Utilization_eq (statHost "cpu 100 0 0 0 0 0 0 0 0 0\n") SamplerState.fresh
      ["100", "0", "0", "0", "0", "0", "0", "0", "0", "0"] 100 0 0 0 0 0 0 0 [0, 0]
      (by decide) (by decide) (by decide)]
    have hT : subLong (wrapLong (100 + 0 + 0 + 0 + 0 + 0 + 0 + 0))
        SamplerState.fresh.prevTotalTime = 100 := by decide
    have hA : subLong (wrapLong (100 + 0 + 0 + 0 + 0 + 0))
        SamplerState.fresh.prevActiveTime = 100 := by decide
    have hT1 : wrapLong (100 + 0 + 0 + 0 + 0 + 0 + 0 + 0) = 100 := by decide
    have hA1 : wrapLong (100 + 0 + 0 + 0 + 0 + 0) = 100 := by decide
    rw [hT, hA, hT1, hA1]
    norm_num
  · rw [Processor.Utilization_eq (statHost "cpu 50 0 0 100 0 0 0 0 0 0\n") (SamplerState.mk 100 100)
      ["50", "0", "0", "100", "0", "0", "0", "0", "0", "0"] 50 0 0 100 0 0 0 0 [0, 0]
      (by decide) (by decide) (by decide)]
    have hT : subLong (wrapLong (50 + 0 + 0 + 0 + 0 + 0 + 100 + 0))
        (SamplerState.mk 100 100).prevTotalTime = 50 := by decide
    have hA : subLong (wrapLong (50 + 0 + 0 + 0 + 0 + 0))
        (SamplerState.mk 100 100).prevActiveTime = -50 := by decide
    have hT1 : wrapLong (50 + 0 + 0 + 0 + 0 + 0 + 100 + 0) = 150 := by decide
    have hA1 : wrapLong (50 + 0 + 0 + 0 + 0 + 0) = 50 := by decide
    rw [hT, hA, hT1, hA1]
    norm_num

/-- C5, amended. On every sampler state and every reading whose counters
`std::stol` converts, `Processor::Utilization()` returns; with `totalDiff` and
`activeDiff` the stored total and active after the call minus those before, the
result is exactly 0.0 when `totalDiff ≤ 0` (so also when it is negative), and it
is not negative when `activeDiff ≥ 0`. -/
theorem C5_zero_or_sign_of_active (h : Host) (s : SamplerState)
    (hnum : 10 ≤ (LinuxParser.CpuUtilization h).length →
      ∃ values, stolAll (LinuxParser.CpuUtilization h) = Except.ok values) :
    ∃ r s1, Processor.Utilization h s = Except.ok (r, s1)
      ∧ (subLong s1.prevTotalTime s.prevTotalTime ≤ 0 → r = 0)
      ∧ (0 ≤ subLong s1.prevActiveTime s.prevActiveTime → 0 ≤ r) := by
  by_cases hlen : 10 ≤ (LinuxParser.CpuUtilization h).length
  · obtain ⟨values, hv⟩ := hnum hlen
    have hvl : 8 ≤ values.length := by
      rw [stolAll_length _ values hv]; omega
    obtain ⟨user, nice, system, idle, iowait, irq, softirq, steal, more, he⟩ :=
      exists_eight_of_length values hvl
    rw [he] at hv
    refine ⟨_, _, Processor.Utilization_eq h s _ user nice system idle iowait irq softirq
      steal more rfl hlen hv, ?_, ?_⟩
    · intro hle
      simp only [gt_iff_lt, not_lt.mpr hle, if_false]
    · intro hge
      simp only at hge ⊢
      split
      · rename_i hpos
        apply div_nonneg
        · exact_mod_cast hge
        · exact_mod_cast le_of_lt hpos
      · exact le_refl 0
  · refine ⟨0, s, Processor.Utilization_rejects h s (Nat.lt_of_not_le hlen), ?_, ?_⟩
    · intro _; rfl
    · intro _; exact le_refl 0

/-- C5 as amended, at the reading of the counterexample taken after a counter
reset of the whole line: from (active 100, total 100) the reading
`cpu 5 0 0 5 0 0 0 0 0 0` has a negative `totalDiff`. -/
theorem C5_zero_or_sign_of_active_witness :
    ∃ r s1, Processor.Utilization (statHost "cpu 5 0 0 5 0 0 0 0 0 0\n") (SamplerState.mk 100 100)
        = Except.ok (r, s1)
      ∧ (subLong s1.prevTotalTime (SamplerState.mk 100 100).prevTotalTime ≤ 0 → r = 0)
      ∧ (0 ≤ subLong s1.prevActiveTime (SamplerState.mk 100 100).prevActiveTime → 0 ≤ r) :=
  C5_zero_or_sign_of_active (statHost "cpu 5 0 0 5 0 0 0 0 0 0\n") (SamplerState.mk 100 100)
    (fun _ => ⟨[5, 0, 0, 5, 0, 0, 0, 0, 0, 0], by decide⟩)

/-! ## Claims on the jiffies readers -/

theorem addLong_eq_wrap_sum5 (a b c d e : Int) :
    addLong (addLong (addLong (addLong a b) c) d) e = wrapLong (a + b + c + d + e) := by
  simp only [addLong, wrapLong_add_left]

theorem addLong_eq_wrap_sum7 (a b c d e f g : Int) :
    addLong (addLong (addLong (addLong (addLong (addLong a b) c) d) e) f) g
      = wrapLong (a + b + c + d + e + f + g) := by
  simp only [addLong, wrapLong_add_left]

theorem LinuxParser.Jiffies_eq (h : Host) (line : String) (v1 v2 v3 v4 v5 v6 v7 : Int)
    (hline : ReadLine h.stat = some line) (hlen : 8 ≤ (SplitString line).length)
    (h1 : stol ((SplitString line).getD 1 "") = Except.ok v1)
    (h2 : stol ((SplitString line).getD 2 "") = Except.ok v2)
    (h3 : stol ((SplitString line).getD 3 "") = Except.ok v3)
    (h4 : stol ((SplitString line).getD 4 "") = Except.ok v4)
    (h5 : stol ((SplitString line).getD 5 "") = Except.ok v5)
    (h6 : stol ((SplitString line).getD 6 "") = Except.ok v6)
    (h7 : stol ((SplitString line).getD 7 "") = Except.ok v7) :
    LinuxParser.Jiffies h = Except.ok (wrapLong (v1 + v2 + v3 + v4 + v5 + v6 + v7)) := by
  unfold LinuxParser.Jiffies
  rw [hline]
  simp only [Nat.not_lt.mpr hlen, if_false, h1, h2, h3, h4, h5, h6, h7]
  simp only [bind, Except.bind, pure, Except.pure, addLong_eq_wrap_sum7]

theorem LinuxParser.ActiveJiffies_eq (h : Host) (line : String) (v1 v2 v3 v6 v7 : Int)
    (hline : ReadLine h.stat = some line) (hlen : 8 ≤ (SplitString line).length)
    (h1 : stol ((SplitString line).getD 1 "") = Except.ok v1)
    (h2 : stol ((SplitString line).getD 2 "") = Except.ok v2)
    (h3 : stol ((SplitString line).getD 3 "") = Except.ok v3)
    (h6 : stol ((SplitString line).getD 6 "") = Except.ok v6)
    (h7 : stol ((SplitString line).getD 7 "") = Except.ok v7) :
    LinuxParser.ActiveJiffies h = Except.ok (wrapLong (v1 + v2 + v3 + v6 + v7)) := by
  unfold LinuxParser.ActiveJiffies
  rw [hline]
  simp only [Nat.not_lt.mpr hlen, if_false, h1, h2, h3, h6, h7]
  simp only [bind, Except.bind, pure, Except.pure, addLong_eq_wrap_sum5]

theorem LinuxParser.IdleJiffies_eq (h : Host) (line : String) (v4 v5 : Int)
    (hline : ReadLine h.stat = some line) (hlen : 5 ≤ (SplitString line).length)
    (h4 : stol ((SplitString line).getD 4 "") = Except.ok v4)
    (h5 : stol ((SplitString line).getD 5 "") = Except.ok v5) :
    LinuxParser.IdleJiffies h = Except.ok (wrapLong (v4 + v5)) := by
  unfold LinuxParser.IdleJiffies
  rw [hline]
  simp only [Nat.not_lt.mpr hlen, if_false, h4, h5]
  simp only [bind, Except.bind, pure, Except.pure, addLong]

/-- C8. On a first line of `/proc/stat` with at least 8 tokens whose tokens 1 to
7 `std::stol` converts, `Jiffies()`, `ActiveJiffies()` and `IdleJiffies()` all
return, and `Jiffies()` is `ActiveJiffies() + IdleJiffies()` as a sum of two
`long` values, which is the integer sum when that sum fits in a `long`. -/
theorem C8_jiffies_is_active_plus_idle (h : Host) (line : String)
    (v1 v2 v3 v4 v5 v6 v7 : Int)
    (hline : ReadLine h.stat = some line) (hlen : 8 ≤ (SplitString line).length)
    (h1 : stol ((SplitString line).getD 1 "") = Except.ok v1)
    (h2 : stol ((SplitString line).getD 2 "") = Except.ok v2)
    (h3 : stol ((SplitString line).getD 3 "") = Except.ok v3)
    (h4 : stol ((SplitString line).getD 4 "") = Except.ok v4)
    (h5 : stol ((SplitString line).getD 5 "") = Except.ok v5)
    (h6 : stol ((SplitString line).getD 6 "") = Except.ok v6)
    (h7 : stol ((SplitString line).getD 7 "") = Except.ok v7) :
    ∃ total active idle,
      LinuxParser.Jiffies h = Except.ok total
      ∧ LinuxParser.ActiveJiffies h = Except.ok active
      ∧ LinuxParser.IdleJiffies h = Except.ok idle
      ∧ total = addLong active idle
      ∧ (InLong (active + idle) → total = active + idle) := by
  refine ⟨_, _, _, LinuxParser.Jiffies_eq h line v1 v2 v3 v4 v5 v6 v7 hline hlen h1 h2 h3 h4 h5 h6 h7,
    LinuxParser.ActiveJiffies_eq h line v1 v2 v3 v6 v7 hline hlen h1 h2 h3 h6 h7,
    LinuxParser.IdleJiffies_eq h line v4 v5 hline (by omega) h4 h5, ?_, ?_⟩
  · unfold addLong
    rw [wrapLong_add_left, wrapLong_add_right]
    congr 1
    ring
  · intro hfit
    rw [← wrapLong_eq_self hfit, wrapLong_add_left, wrapLong_add_right]
    congr 1
    ring

/-- C8, at the line `cpu 1 2 3 4 5 6 7 8 0 0`: 28 = 19 + 9. -/
theorem C8_jiffies_is_active_plus_idle_witness :
    ∃ total active idle,
      LinuxParser.Jiffies (statHost "cpu 1 2 3 4 5 6 7 8 0 0\n") = Except.ok total
      ∧ LinuxParser.ActiveJiffies (statHost "cpu 1 2 3 4 5 6 7 8 0 0\n") = Except.ok active
      ∧ LinuxParser.IdleJiffies (statHost "cpu 1 2 3 4 5 6 7 8 0 0\n") = Except.ok idle
      ∧ total = addLong active idle
      ∧ (InLong (active + idle) → total = active + idle) :=
  C8_jiffies_is_active_plus_idle (statHost "cpu 1 2 3 4 5 6 7 8 0 0\n") "cpu 1 2 3 4 5 6 7 8 0 0"
    1 2 3 4 5 6 7 (by decide) (by decide) (by decide) (by decide) (by decide) (by decide)
    (by decide) (by decide) (by decide)

/-- C9, refuted. On the line `cpu 1 2 3 4 5 6 7 8 0 0` the steal counter is 8
and `ActiveJiffies()` returns 1+2+3+6+7 = 19, not 1+2+3+6+7+8 = 27. -/
theorem C9_steal_counterexample :
    LinuxParser.ActiveJiffies (statHost "cpu 1 2 3 4 5 6 7 8 0 0\n") = Except.ok 19
      ∧ stol ((SplitString "cpu 1 2 3 4 5 6 7 8 0 0").getD 8 "") = Except.ok 8
      ∧ (19 : Int) ≠ 1 + 2 + 3 + 6 + 7 + 8 := by
  decide

/-- C9, amended. For a first line of `/proc/stat` with at least 8 tokens whose
tokens 1, 2, 3, 6 and 7 `std::stol` converts, the system-wide `ActiveJiffies()`
returns `user+nice+system+irq+softirq` (idle, iowait and steal are left out),
the sum fitting in a `long`; for a line with fewer than 8 tokens it returns 0. -/
theorem C9_active_is_five_counters (h : Host) (line : String)
    (hline : ReadLine h.stat = some line) :
    ((SplitString line).length < 8 → LinuxParser.ActiveJiffies h = Except.ok 0)
    ∧ (∀ user nice system irq softirq : Int,
      8 ≤ (SplitString line).length →
      stol ((SplitString line).getD 1 "") = Except.ok user →
      stol ((SplitString line).getD 2 "") = Except.ok nice →
      stol ((SplitString line).getD 3 "") = Except.ok system →
      stol ((SplitString line).getD 6 "") = Except.ok irq →
      stol ((SplitString line).getD 7 "") = Except.ok softirq →
      InLong (user + nice + system + irq + softirq) →
      LinuxParser.ActiveJiffies h = Except.ok (user + nice + system + irq + softirq)) := by
  constructor
  · intro hlen
    unfold LinuxParser.ActiveJiffies
    rw [hline]
    simp only [hlen, if_true]
  · intro user nice system irq softirq hlen h1 h2 h3 h6 h7 hfit
    rw [LinuxParser.ActiveJiffies_eq h line user nice system irq softirq hline hlen h1 h2 h3 h6 h7,
      wrapLong_eq_self hfit]

/-- C9 as amended, at the lines `cpu 1 2 3` and `cpu 1 2 3 4 5 6 7 8 0 0`. -/
theorem C9_active_is_five_counters_witness :
    LinuxParser.ActiveJiffies (statHost "cpu 1 2 3\n") = Except.ok 0
      ∧ LinuxParser.ActiveJiffies (statHost "cpu 1 2 3 4 5 6 7 8 0 0\n")
        = Except.ok (1 + 2 + 3 + 6 + 7) :=
  ⟨(C9_active_is_five_counters (statHost "cpu 1 2 3\n") "cpu 1 2 3" (by decide)).1 (by decide),
   (C9_active_is_five_counters (statHost "cpu 1 2 3 4 5 6 7 8 0 0\n") "cpu 1 2 3 4 5 6 7 8 0 0"
      (by decide)).2 1 2 3 6 7 (by decide) (by decide) (by decide) (by decide) (by decide)
      (by decide) (by decide)⟩

/-! ## Claims on the counter line reader -/

/-- C10, refuted. The line `cpu 1 2 3` has 4 tokens, fewer than 8, and
`LinuxParser::CpuUtilization()` returns the three counters, not the empty
sequence. -/
theorem C10_short_line_counterexample :
    (SplitString "cpu 1 2 3").length = 4
      ∧ LinuxParser.CpuUtilization (statHost "cpu 1 2 3\n") = ["1", "2", "3"] := by
  decide

/-- C10, amended. `LinuxParser::CpuUtilization()` checks the label only. It
returns the empty sequence when `/proc/stat` cannot be read and when the first
token of its first line is not literally `cpu` (or the line has no token); when
the first token is `cpu` it returns every token after it, however few. So the
result is non-empty exactly when the first token is `cpu` and one more token
follows. -/
theorem C10_label_check_only (h : Host) :
    (h.stat = none → LinuxParser.CpuUtilization h = [])
    ∧ (∀ line, ReadLine h.stat = some line → (SplitString line).head? ≠ some "cpu" →
        LinuxParser.CpuUtilization h = [])
    ∧ (∀ line counters, ReadLine h.stat = some line → SplitString line = "cpu" :: counters →
        LinuxParser.CpuUtilization h = counters)
    ∧ (LinuxParser.CpuUtilization h ≠ [] ↔
        ∃ line c cs, ReadLine h.stat = some line ∧ SplitString line = "cpu" :: c :: cs) := by
  have hnone : h.stat = none → LinuxParser.CpuUtilization h = [] := by
    intro hs
    unfold LinuxParser.CpuUtilization ReadLine
    rw [hs]
    rfl
  have hbad : ∀ line, ReadLine h.stat = some line → (SplitString line).head? ≠ some "cpu" →
      LinuxParser.CpuUtilization h = [] := by
    intro line hline hhead
    unfold LinuxParser.CpuUtilization
    rw [hline]
    cases hs : SplitString line with
    | nil => simp only [hs]
    | cons label rest =>
      rw [hs] at hhead
      have hne : label ≠ "cpu" := by
        intro hl
        apply hhead
        rw [hl]
        rfl
      simp [hs, hne]
  refine ⟨hnone, hbad, LinuxParser.CpuUtilization_of_line h, ?_⟩
  constructor
  · intro hne
    cases hl : ReadLine h.stat with
    | none =>
      exfalso
      apply hne
      unfold LinuxParser.CpuUtilization
      rw [hl]
    | some line =>
      by_cases hhead : (SplitString line).head? = some "cpu"
      · cases hs : SplitString line with
        | nil => rw [hs] at hhead; cases hhead
        | cons label rest =>
          rw [hs] at hhead
          simp only [List.head?_cons, Option.some.injEq] at hhead
          rw [hhead] at hs
          cases rest with
          | nil =>
            exfalso
            apply hne
            exact LinuxParser.CpuUtilization_of_line h line [] hl hs
          | cons c cs => exact ⟨line, c, cs, rfl, hs⟩
      · exact absurd (hbad line hl hhead) hne
  · rintro ⟨line, c, cs, hline, hs⟩
    rw [LinuxParser.CpuUtilization_of_line h line (c :: cs) hline hs]
    exact List.cons_ne_nil c cs

/-- C10 as amended, at the lines `intr 1 2 3 4 5 6 7 8` and `cpu 1 2 3`. -/
theorem C10_label_check_only_witness :
    LinuxParser.CpuUtilization (statHost "intr 1 2 3 4 5 6 7 8\n") = []
      ∧ LinuxParser.CpuUtilization (statHost "cpu 1 2 3\n") = ["1", "2", "3"] :=
  ⟨(C10_label_check_only (statHost "intr 1 2 3 4 5 6 7 8\n")).2.1 "intr 1 2 3 4 5 6 7 8"
      (by decide) (by decide),
   (C10_label_check_only (statHost "cpu 1 2 3\n")).2.2.1 "cpu 1 2 3" ["1", "2", "3"]
      (by decide) (by decide)⟩

/-! ## Claims on the per-process utilization -/

theorem LinuxParser.CpuUtilizationPid_four (h : Host) (pid : Int) :
    ∃ a b c d, LinuxParser.CpuUtilizationPid h pid = [a, b, c, d] := by
  unfold LinuxParser.CpuUtilizationPid
  cases ReadLine (h.pidStat pid) with
  | none => exact ⟨_, _, _, _, rfl⟩
  | some line =>
    simp only
    split
    · exact ⟨_, _, _, _, rfl⟩
    · exact ⟨_, _, _, _, rfl⟩

theorem Process.CpuUtilization_zero_of_ok (h : Host) (p : Process) (q : ℚ)
    (hq : Process.CpuUtilization h p = Except.ok q) : q = 0 := by
  obtain ⟨a, b, c, d, habcd⟩ := LinuxParser.CpuUtilizationPid_four h p.pid_
  unfold Process.CpuUtilization at hq
  rw [habcd] at hq
  simp only [List.length_cons, List.length_nil, List.getD_cons_zero, List.getD_cons_succ] at hq
  cases ha : h.stof a with
  | error e => simp [ha, bind, Except.bind] at hq
  | ok qa =>
    cases hb : h.stof b with
    | error e => simp [ha, hb, bind, Except.bind] at hq
    | ok qb =>
      cases hc : h.stof c with
      | error e => simp [ha, hb, hc, bind, Except.bind] at hq
      | ok qc =>
        cases hd : h.stof d with
        | error e => simp [ha, hb, hc, hd, bind, Except.bind] at hq
        | ok qd =>
          simp [ha, hb, hc, hd, bind, Except.bind, pure, Except.pure] at hq
          exact hq.symm

/-- C1, the code at a failing input. Process 1 has a stat line of 22 fields with
100+50+25+25 = 200 ticks of CPU time and start time 200 ticks; the clock ticks
100 times a second and the system is up 1000 s. The process is constructed,
`Process::CpuUtilization()` returns 0.0, and the lifetime formula of the claim,
(200/100) / (1000 - 200/100), is 1/499. On no machine and for no process does
`Process::CpuUtilization()` return anything but 0.0. -/
theorem C1_lifetime_formula_not_computed :
    (SplitString "1 (a) S 0 0 0 0 0 0 0 0 0 0 100 50 25 25 0 0 0 0 200").length = 22
      ∧ Process.construct (exampleHost "" lifetimeStat) 1
        = Except.ok (Process.mk 1 ["100", "50", "25", "25"] 998)
      ∧ Process.CpuUtilization (exampleHost "" lifetimeStat)
          (Process.mk 1 ["100", "50", "25", "25"] 998) = Except.ok 0
      ∧ (((100 + 50 + 25 + 25 : ℚ) / 100) / (1000 - 200 / 100) = 1 / 499)
      ∧ (∀ (h : Host) (p : Process) (q : ℚ), Process.CpuUtilization h p = Except.ok q → q = 0) := by
  refine ⟨by decide, by decide, by decide, by norm_num, ?_⟩
  intro h p q hq
  exact Process.CpuUtilization_zero_of_ok h p q hq

/-! ## The process registry -/

theorem mem_setInsert (x a : Int) : ∀ s : List Int, a ∈ setInsert x s ↔ a = x ∨ a ∈ s
  | [] => by simp [setInsert]
  | y :: ys => by
    unfold setInsert
    split
    · simp
    · split
      · rename_i hxy
        rw [hxy]
        simp
      · rw [List.mem_cons, mem_setInsert x a ys, List.mem_cons]
        tauto

theorem setInsert_pairwise (x : Int) : ∀ s : List Int,
    s.Pairwise (fun a b => a < b) → (setInsert x s).Pairwise (fun a b => a < b)
  | [], _ => by simp [setInsert]
  | y :: ys, hs => by
    unfold setInsert
    have hy := List.pairwise_cons.mp hs
    split
    · rename_i hlt
      refine List.pairwise_cons.mpr ⟨?_, hs⟩
      intro b hb
      rcases List.mem_cons.mp hb with hb | hb
      · rw [hb]; exact hlt
      · exact lt_trans hlt (hy.1 b hb)
    · split
      · exact hs
      · rename_i hnlt hne
        refine List.pairwise_cons.mpr ⟨?_, setInsert_pairwise x ys hy.2⟩
        intro b hb
        rcases (mem_setInsert x b ys).mp hb with hb | hb
        · rw [hb]; omega
        · exact hy.1 b hb

theorem Process.CpuUtilization_of_stof (h : Host) (p : Process)
    (hstof : ∀ tok ∈ LinuxParser.CpuUtilizationPid h p.pid_, ∃ q, h.stof tok = Except.ok q) :
    Process.CpuUtilization h p = Except.ok 0 := by
  obtain ⟨a, b, c, d, habcd⟩ := LinuxParser.CpuUtilizationPid_four h p.pid_
  rw [habcd] at hstof
  obtain ⟨qa, ha⟩ := hstof a (by simp)
  obtain ⟨qb, hb⟩ := hstof b (by simp)
  obtain ⟨qc, hc⟩ := hstof c (by simp)
  obtain ⟨qd, hd⟩ := hstof d (by simp)
  unfold Process.CpuUtilization
  rw [habcd]
  simp [ha, hb, hc, hd, bind, Except.bind, pure, Except.pure]

theorem Process.construct_of_upTime (h : Host) (pid up : Int)
    (hup : LinuxParser.UpTimePid h pid = Except.ok up) :
    Process.construct h pid
      = Except.ok (Process.mk pid (LinuxParser.CpuUtilizationPid h pid) up) := by
  unfold Process.construct Process.Update
  simp only [hup, bind, Except.bind, pure, Except.pure]

theorem Process.pid_of_construct (h : Host) (pid : Int) (p : Process)
    (hp : Process.construct h pid = Except.ok p) : p.Pid = pid := by
  unfold Process.construct Process.Update at hp
  cases hup : LinuxParser.UpTimePid h pid with
  | error e => simp [hup, bind, Except.bind] at hp
  | ok up =>
    simp only [hup, bind, Except.bind, pure, Except.pure, Except.ok.injEq] at hp
    rw [← hp]
    rfl

theorem System.collect_ok (h : Host) (tracked : List Process) :
    ∀ (pids : List Int) (set0 : List Int) (np0 : List Process),
    (∀ pid ∈ pids, ∃ p, Process.construct h pid = Except.ok p) →
    ∃ set np, System.collect h tracked pids (set0, np0) = Except.ok (set, np)
      ∧ (set0.Pairwise (fun a b => a < b) → set.Pairwise (fun a b => a < b))
      ∧ (∀ a, a ∈ set ↔ a ∈ pids ∨ a ∈ set0)
  | [], set0, np0, _ => ⟨set0, np0, rfl, id, by simp⟩
  | pid :: rest, set0, np0, hc => by
    have hrest : ∀ q ∈ rest, ∃ p, Process.construct h q = Except.ok p :=
      fun q hq => hc q (List.mem_cons_of_mem pid hq)
    have step : ∀ p : Process,
        ∃ set np, System.collect h tracked rest (setInsert pid set0, np0 ++ [p])
            = Except.ok (set, np)
          ∧ (set0.Pairwise (fun a b => a < b) → set.Pairwise (fun a b => a < b))
          ∧ (∀ a, a ∈ set ↔ a ∈ pid :: rest ∨ a ∈ set0) := by
      intro p
      obtain ⟨set, np, hok, hsorted, hmem⟩ :=
        System.collect_ok h tracked rest (setInsert pid set0) (np0 ++ [p]) hrest
      refine ⟨set, np, hok, fun hs => hsorted (setInsert_pairwise pid set0 hs), ?_⟩
      intro a
      rw [hmem a, mem_setInsert, List.mem_cons]
      tauto
    unfold System.collect
    cases hf : tracked.find? (fun process => process.Pid == pid) with
    | some p => exact step p
    | none =>
      obtain ⟨p, hp⟩ := hc pid (List.mem_cons_self pid rest)
      simp only [hp]
      exact step p

theorem System.rebuild_ok (h : Host) :
    ∀ (l : List Int), (∀ pid ∈ l, ∃ p, Process.construct h pid = Except.ok p) →
    ∃ ps, System.rebuild h l = Except.ok ps ∧ ps.map Process.Pid = l
  | [], _ => ⟨[], rfl, rfl⟩
  | pid :: rest, hc => by
    obtain ⟨p, hp⟩ := hc pid (List.mem_cons_self pid rest)
    obtain ⟨ps, hps, hmap⟩ :=
      System.rebuild_ok h rest (fun q hq => hc q (List.mem_cons_of_mem pid hq))
    refine ⟨p :: ps, ?_, ?_⟩
    · unfold System.rebuild
      simp only [hp, hps]
    · rw [List.map_cons, hmap, Process.pid_of_construct h pid p hp]

theorem System.cpuThrows_none (h : Host) :
    ∀ (ps : List Process), (∀ p ∈ ps, ∃ q, Process.CpuUtilization h p = Except.ok q) →
    System.cpuThrows h ps = none
  | [], _ => rfl
  | p :: ps, hc => by
    obtain ⟨q, hq⟩ := hc p (List.mem_cons_self p ps)
    unfold System.cpuThrows
    simp only [hq]
    exact System.cpuThrows_none h ps (fun r hr => hc r (List.mem_cons_of_mem p hr))

theorem System.byCpu_strictWeak (h : Host) : StrictWeak (System.byCpu h) where
  irrefl := by
    intro a
    simp [System.byCpu]
  trans := by
    intro a b c hab hbc
    simp only [System.byCpu, decide_eq_true_eq] at hab hbc ⊢
    exact lt_trans hbc hab
  incomp_trans := by
    intro a b c hab hba hbc hcb
    simp only [System.byCpu, decide_eq_false_iff_not, not_lt, gt_iff_lt] at hab hba hbc hcb ⊢
    exact ⟨le_trans hab hbc, le_trans hcb hba⟩

theorem StrictWeak.total_of_not {α : Type} {lt : α → α → Bool} (hw : StrictWeak lt) (a b : α) :
    lt b a = false ∨ lt a b = false := by
  cases hba : lt b a with
  | false => exact Or.inl rfl
  | true =>
    right
    cases hab : lt a b with
    | false => rfl
    | true =>
      have haa := hw.trans a b a hab hba
      rw [hw.irrefl a] at haa
      cases haa

theorem StrictWeak.not_trans {α : Type} {lt : α → α → Bool} (hw : StrictWeak lt) (a b c : α)
    (hba : lt b a = false) (hcb : lt c b = false) : lt c a = false := by
  cases hca : lt c a with
  | false => rfl
  | true =>
    exfalso
    have hbc : lt b c = false := by
      cases hbc : lt b c with
      | false => rfl
      | true =>
        have hx := hw.trans b c a hbc hca
        rw [hba] at hx
        cases hx
    have hab : lt a b = false := by
      cases hab : lt a b with
      | false => rfl
      | true =>
        have hx := hw.trans c a b hca hab
        rw [hcb] at hx
        cases hx
    have hx := (hw.incomp_trans a b c hab hba hbc hcb).2
    rw [hca] at hx
    cases hx

theorem insertionSort_sorted {α : Type} (lt : α → α → Bool) (hw : StrictWeak lt) (l : List α) :
    List.Pairwise (fun a b => lt b a = false)
      (List.insertionSort (fun a b => lt b a = false) l) := by
  haveI : IsTotal α (fun a b => lt b a = false) := ⟨fun a b => hw.total_of_not a b⟩
  haveI : IsTrans α (fun a b => lt b a = false) := ⟨fun a b c hab hbc => hw.not_trans a b c hab hbc⟩
  exact List.sorted_insertionSort (fun a b => lt b a = false) l

theorem insertionSort_stdSort {α : Type} :
    StdSort (insertionSort : (α → α → Bool) → List α → List α) where
  perm := fun lt l _ => List.perm_insertionSort (fun a b => lt b a = false) l
  sorted := fun lt l hw => insertionSort_sorted lt hw l

theorem exists_of_returns {ε α : Type} {r : Except ε α} (hr : returns r = true) :
    ∃ v, r = Except.ok v := by
  cases r with
  | ok v => exact ⟨v, rfl⟩
  | error e => cases hr

theorem pairwise_of_length_lt_two {α : Type} (R : α → α → Prop) :
    ∀ l : List α, l.length < 2 → l.Pairwise R
  | [], _ => List.Pairwise.nil
  | [a], _ => List.pairwise_singleton R a
  | _ :: _ :: _, hl => by
    simp only [List.length_cons] at hl
    omega

/-- What `System::Processes()` does when no per-process read throws: it
returns a rearrangement of the processes built for the ascending list of the
live pids, with no process before one the comparator puts in front of it. -/
theorem System.Processes_ok (sort : (Process → Process → Bool) → List Process → List Process)
    (hsort : StdSort sort) (h : Host) (tracked : List Process) (pids : List Int)
    (hread : ∀ pid ∈ pids, returns (LinuxParser.UpTimePid h pid) = true
      ∧ ∀ tok ∈ LinuxParser.CpuUtilizationPid h pid, returns (h.stof tok) = true) :
    ∃ result set, System.Processes sort h tracked pids = Except.ok result
      ∧ List.Perm (result.map Process.Pid) set
      ∧ set.Pairwise (fun a b => a < b)
      ∧ (∀ a, a ∈ set ↔ a ∈ pids)
      ∧ result.Pairwise (fun a b => System.byCpu h b a = false)
      ∧ (∀ p ∈ result, Process.CpuUtilization h p = Except.ok 0) := by
  have hcons : ∀ pid ∈ pids, ∃ p, Process.construct h pid = Except.ok p := by
    intro pid hpid
    obtain ⟨up, hup⟩ := exists_of_returns (hread pid hpid).1
    exact ⟨_, Process.construct_of_upTime h pid up hup⟩
  obtain ⟨set, np, hcol, hsorted, hmem⟩ := System.collect_ok h tracked pids [] [] hcons
  have hmem2 : ∀ a, a ∈ set ↔ a ∈ pids := by
    intro a
    rw [hmem a]
    simp
  obtain ⟨ps, hps, hmap⟩ := System.rebuild_ok h set (fun pid hp => hcons pid ((hmem2 pid).mp hp))
  have hcpu : ∀ p ∈ ps, Process.CpuUtilization h p = Except.ok 0 := by
    intro p hp
    have hpid : p.pid_ ∈ pids := by
      apply (hmem2 p.pid_).mp
      rw [← hmap]
      exact List.mem_map_of_mem Process.Pid hp
    apply Process.CpuUtilization_of_stof
    intro tok htok
    exact exists_of_returns ((hread p.pid_ hpid).2 tok htok)
  have hproc : System.Processes sort h tracked pids = System.sortByCpu sort h ps := by
    unfold System.Processes
    simp only [hcol, hps]
  by_cases hlen : ps.length < 2
  · refine ⟨ps, set, ?_, ?_, hsorted List.Pairwise.nil, hmem2,
      pairwise_of_length_lt_two _ ps hlen, hcpu⟩
    · rw [hproc]
      unfold System.sortByCpu
      simp only [hlen, if_true]
    · rw [hmap]
  · have hnone := System.cpuThrows_none h ps (fun p hp => ⟨0, hcpu p hp⟩)
    have hperm := hsort.perm (System.byCpu h) ps (System.byCpu_strictWeak h)
    refine ⟨sort (System.byCpu h) ps, set, ?_, ?_, hsorted List.Pairwise.nil, hmem2,
      hsort.sorted (System.byCpu h) ps (System.byCpu_strictWeak h), ?_⟩
    · rw [hproc]
      unfold System.sortByCpu
      simp only [hlen, if_false, hnone]
    · rw [← hmap]
      exact hperm.map Process.Pid
    · intro p hp
      exact hcpu p (hperm.mem_iff.mp hp)

/-- C6. Registry reconciliation. Whatever was tracked before and whatever
conforming `std::sort` is used, when no read of a live process throws,
`System::Processes()` returns, and the pids of the sequence it leaves in
`processes_` are exactly the live pids, each once: a tracked pid that is not
live is gone, a new live pid is there, a pid that is both stays. -/
theorem C6_registry_reconciliation
    (sort : (Process → Process → Bool) → List Process → List Process)
    (hsort : StdSort sort) (h : Host) (tracked : List Process) (pids : List Int)
    (hread : ∀ pid ∈ pids, returns (LinuxParser.UpTimePid h pid) = true
      ∧ ∀ tok ∈ LinuxParser.CpuUtilizationPid h pid, returns (h.stof tok) = true) :
    ∃ result, System.Processes sort h tracked pids = Except.ok result
      ∧ (result.map Process.Pid).Nodup
      ∧ (∀ pid, pid ∈ result.map Process.Pid ↔ pid ∈ pids)
      ∧ (∀ p ∈ tracked, p.Pid ∉ pids → p.Pid ∉ result.map Process.Pid)
      ∧ (∀ pid ∈ pids, pid ∉ tracked.map Process.Pid → pid ∈ result.map Process.Pid)
      ∧ (∀ p ∈ tracked, p.Pid ∈ pids → p.Pid ∈ result.map Process.Pid) := by
  obtain ⟨result, set, hok, hperm, hsorted, hmem, _, _⟩ :=
    System.Processes_ok sort hsort h tracked pids hread
  have hiff : ∀ pid, pid ∈ result.map Process.Pid ↔ pid ∈ pids := by
    intro pid
    rw [hperm.mem_iff, hmem pid]
  refine ⟨result, hok, ?_, hiff, ?_, ?_, ?_⟩
  · apply hperm.nodup_iff.mpr
    exact hsorted.imp (fun hab => ne_of_lt hab)
  · intro p _ hp hin
    exact hp ((hiff p.Pid).mp hin)
  · intro pid hpid _
    exact (hiff pid).mpr hpid
  · intro p _ hp
    exact (hiff p.Pid).mpr hp

/-- C6, at the example of the claim: pids 1, 2, 3 are tracked and the live pids
are 2, 3, 4; the pids left are 2, 3, 4. -/
theorem C6_registry_reconciliation_witness :
    System.Processes insertionSort (exampleHost "" registryStat) [] [1, 2, 3]
        = Except.ok tracked123
      ∧ Except.map (List.map Process.Pid)
          (System.Processes insertionSort (exampleHost "" registryStat) tracked123 [2, 3, 4])
        = Except.ok [2, 3, 4]
      ∧ ∃ result, System.Processes insertionSort (exampleHost "" registryStat) tracked123
          [2, 3, 4] = Except.ok result
        ∧ (result.map Process.Pid).Nodup
        ∧ (∀ pid, pid ∈ result.map Process.Pid ↔ pid ∈ [2, 3, 4])
        ∧ (∀ p ∈ tracked123, p.Pid ∉ [2, 3, 4] → p.Pid ∉ result.map Process.Pid)
        ∧ (∀ pid ∈ [2, 3, 4], pid ∉ tracked123.map Process.Pid → pid ∈ result.map Process.Pid)
        ∧ (∀ p ∈ tracked123, p.Pid ∈ [2, 3, 4] → p.Pid ∈ result.map Process.Pid) :=
  ⟨by decide, by decide,
   C6_registry_reconciliation insertionSort insertionSort_stdSort
    (exampleHost "" registryStat) tracked123 [2, 3, 4] (by decide)⟩

/-! ## Claims on the failure paths and the short inputs -/

/-- C13, the code at a failing input. The status file of process 1 has the line
`VmRSS:    2048 kB`. `LinuxParser::Ram` gives "2.00", already megabytes, which
`Process::Update` stores; `Process::Ram()` reads 2 from it, divides by 1024
again and reports "0", not "2". -/
theorem C13_ram_divided_twice :
    LinuxParser.Ram (statusHost "Name:\tcat\nVmRSS:    2048 kB\n") 1 = "2.00"
      ∧ stoi "2.00" = Except.ok 2
      ∧ Process.Ram (LinuxParser.Ram (statusHost "Name:\tcat\nVmRSS:    2048 kB\n") 1) = "0"
      ∧ to_string (2048 / 1024) = "2" := by
  decide

/-- C14, the code at failing inputs. With a first line of `/proc/stat` that has
a letter in the user and idle fields, `Jiffies`, `ActiveJiffies()`,
`IdleJiffies` and `Processor::Utilization` leave through
`std::invalid_argument`; with a user counter of twenty digits `Jiffies` leaves
through `std::out_of_range`. With a letter in fields 14 and 22 of the
per-process stat line, `ActiveJiffies(pid)` and `UpTime(pid)` leave through
`std::invalid_argument`. -/
theorem C14_counter_parsers_throw :
    LinuxParser.Jiffies (statHost "cpu x 2 3 y 5 6 7 8 9 10\n")
        = Except.error CppError.invalid_argument
      ∧ LinuxParser.ActiveJiffies (statHost "cpu x 2 3 y 5 6 7 8 9 10\n")
        = Except.error CppError.invalid_argument
      ∧ LinuxParser.IdleJiffies (statHost "cpu x 2 3 y 5 6 7 8 9 10\n")
        = Except.error CppError.invalid_argument
      ∧ Processor.Utilization (statHost "cpu x 2 3 y 5 6 7 8 9 10\n") SamplerState.fresh
        = Except.error CppError.invalid_argument
      ∧ LinuxParser.Jiffies (statHost "cpu 99999999999999999999 2 3 4 5 6 7 8 9 10\n")
        = Except.error CppError.out_of_range
      ∧ LinuxParser.ActiveJiffiesPid (exampleHost "" letterStat) 1
        = Except.error CppError.invalid_argument
      ∧ LinuxParser.UpTimePid (exampleHost "" letterStat) 1
        = Except.error CppError.invalid_argument := by
  refine ⟨by decide, by decide, by decide, by decide, by decide, by decide, by decide⟩

/-- C17, the code at a failing input. The line `cpu 1 2 3 4` has 5 fields, at
positions 0 to 4. The size test of `IdleJiffies()` lets it through and the
function reads `values[5]`, which is not a position of the vector. (The
embedding gives that read the empty string, on which `std::stol` throws.) -/
theorem C17_idle_reads_past_the_end :
    SplitString "cpu 1 2 3 4" = ["cpu", "1", "2", "3", "4"]
      ∧ ¬ ((SplitString "cpu 1 2 3 4").length < 5)
      ∧ (SplitString "cpu 1 2 3 4").get? 5 = none
      ∧ LinuxParser.IdleJiffies (statHost "cpu 1 2 3 4\n")
        = Except.error CppError.invalid_argument := by
  decide

/-- C19, the code at failing inputs. The fields are not padded to two digits:
5 seconds give `00:00:5`, 60 seconds give `0:1:0` and 3661 seconds give
`1:1:1`. -/
theorem C19_elapsed_time_not_padded :
    Format.ElapsedTime 5 = "00:00:5"
      ∧ Format.ElapsedTime 60 = "0:1:0"
      ∧ Format.ElapsedTime 3661 = "1:1:1" := by
  decide

theorem addLong_eq_wrap_sum4 (a b c d : Int) :
    addLong (addLong (addLong a b) c) d = wrapLong (a + b + c + d) := by
  simp only [addLong, wrapLong_add_left]

theorem getD_of_get? {α : Type} (l : List α) (i : Nat) (d a : α) (ha : l.get? i = some a) :
    l.getD i d = a := by
  rw [List.getD_eq_getElem?_getD, ← List.get?_eq_getElem?, ha]
  rfl

/-- C15. Per-process counter extraction. When the stat file of the process
cannot be read, and when its first line has fewer than 17 fields,
`ActiveJiffies(pid)` returns 0 and `CpuUtilization(pid)` returns four "0". When
the line has at least 17 fields and `std::stol` converts fields 14 to 17,
`CpuUtilization(pid)` returns these four fields in order and
`ActiveJiffies(pid)` returns their sum as a `long`, the integer sum when it
fits. -/
theorem C15_per_process_counters (h : Host) (pid : Int) :
    (h.pidStat pid = none →
      LinuxParser.ActiveJiffiesPid h pid = Except.ok 0
      ∧ LinuxParser.CpuUtilizationPid h pid = ["0", "0", "0", "0"])
    ∧ (∀ line, ReadLine (h.pidStat pid) = some line → (SplitString line).length < 17 →
      LinuxParser.ActiveJiffiesPid h pid = Except.ok 0
      ∧ LinuxParser.CpuUtilizationPid h pid = ["0", "0", "0", "0"])
    ∧ (∀ (line f14 f15 f16 f17 : String) (utime stime cutime cstime : Int),
      ReadLine (h.pidStat pid) = some line → 17 ≤ (SplitString line).length →
      (SplitString line).get? 13 = some f14 → (SplitString line).get? 14 = some f15 →
      (SplitString line).get? 15 = some f16 → (SplitString line).get? 16 = some f17 →
      stol f14 = Except.ok utime → stol f15 = Except.ok stime →
      stol f16 = Except.ok cutime → stol f17 = Except.ok cstime →
      LinuxParser.CpuUtilizationPid h pid = [f14, f15, f16, f17]
      ∧ LinuxParser.ActiveJiffiesPid h pid = Except.ok (wrapLong (utime + stime + cutime + cstime))
      ∧ (InLong (utime + stime + cutime + cstime) →
          LinuxParser.ActiveJiffiesPid h pid = Except.ok (utime + stime + cutime + cstime))) := by
  refine ⟨?_, ?_, ?_⟩
  · intro hnone
    unfold LinuxParser.ActiveJiffiesPid LinuxParser.CpuUtilizationPid ReadLine
    rw [hnone]
    exact ⟨rfl, rfl⟩
  · intro line hline hlen
    unfold LinuxParser.ActiveJiffiesPid LinuxParser.CpuUtilizationPid
    rw [hline]
    simp only [hlen, if_true, and_self]
  · intro line f14 f15 f16 f17 utime stime cutime cstime hline hlen g14 g15 g16 g17
      h14 h15 h16 h17
    have e14 := getD_of_get? (SplitString line) 13 "" f14 g14
    have e15 := getD_of_get? (SplitString line) 14 "" f15 g15
    have e16 := getD_of_get? (SplitString line) 15 "" f16 g16
    have e17 := getD_of_get? (SplitString line) 16 "" f17 g17
    have hA : LinuxParser.ActiveJiffiesPid h pid
        = Except.ok (wrapLong (utime + stime + cutime + cstime)) := by
      unfold LinuxParser.ActiveJiffiesPid
      rw [hline]
      simp only [Nat.not_lt.mpr hlen, if_false, e14, e15, e16, e17, h14, h15, h16, h17]
      simp only [bind, Except.bind, pure, Except.pure, addLong_eq_wrap_sum4]
    refine ⟨?_, hA, ?_⟩
    · unfold LinuxParser.CpuUtilizationPid
      rw [hline]
      simp only [Nat.not_lt.mpr hlen, if_false, e14, e15, e16, e17]
    · intro hfit
      rw [hA, wrapLong_eq_self hfit]

/-- C15, at an unreadable file (process 2), at a line of 5 fields and at the
line of process 1 of the example machine, whose fields 14 to 17 are 100, 50,
25, 25. -/
theorem C15_per_process_counters_witness :
    (LinuxParser.ActiveJiffiesPid (exampleHost "" lifetimeStat) 2 = Except.ok 0
      ∧ LinuxParser.CpuUtilizationPid (exampleHost "" lifetimeStat) 2 = ["0", "0", "0", "0"])
    ∧ (LinuxParser.ActiveJiffiesPid (exampleHost "" shortStat) 1 = Except.ok 0
      ∧ LinuxParser.CpuUtilizationPid (exampleHost "" shortStat) 1 = ["0", "0", "0", "0"])
    ∧ (LinuxParser.CpuUtilizationPid (exampleHost "" lifetimeStat) 1 = ["100", "50", "25", "25"]
      ∧ LinuxParser.ActiveJiffiesPid (exampleHost "" lifetimeStat) 1
        = Except.ok (wrapLong (100 + 50 + 25 + 25))
      ∧ (InLong (100 + 50 + 25 + 25) →
          LinuxParser.ActiveJiffiesPid (exampleHost "" lifetimeStat) 1
            = Except.ok (100 + 50 + 25 + 25))) :=
  ⟨(C15_per_process_counters (exampleHost "" lifetimeStat) 2).1 (by decide),
   (C15_per_process_counters (exampleHost "" shortStat) 1).2.1 "1 (a) S 0 0"
      (by decide) (by decide),
   (C15_per_process_counters (exampleHost "" lifetimeStat) 1).2.2
      "1 (a) S 0 0 0 0 0 0 0 0 0 0 100 50 25 25 0 0 0 0 200" "100" "50" "25" "25" 100 50 25 25
      (by decide) (by decide) (by decide) (by decide) (by decide) (by decide)
      (by decide) (by decide) (by decide) (by decide)⟩

/-- C18, refuted. The line `cpu 10 0 0 10 0 0 0 0` starts with `cpu` and has 9
fields, 8 of them counters. On a fresh sampler `Processor::Utilization()`
returns 0.0 and leaves the sampler fresh: it does not return 10/20 and does not
store (active 10, total 20). -/
theorem C18_short_row_counterexample :
    SplitString "cpu 10 0 0 10 0 0 0 0" = ["cpu", "10", "0", "0", "10", "0", "0", "0", "0"]
      ∧ Processor.Utilization (statHost "cpu 10 0 0 10 0 0 0 0\n") SamplerState.fresh
        = Except.ok (0, SamplerState.fresh)
      ∧ SamplerState.fresh ≠ SamplerState.mk 20 10 := by
  decide

/-- C18, amended. For every sampler state and every first line of `/proc/stat`
that starts with `cpu` and has fewer than ten counters after it,
`Processor::Utilization()` returns the no-data value 0.0 and leaves the stored
sample as it was, whatever the counters are. -/
theorem C18_short_row_is_rejected (h : Host) (s : SamplerState) (line : String)
    (counters : List String)
    (hline : ReadLine h.stat = some line)
    (htok : SplitString line = "cpu" :: counters)
    (hlen : counters.length < 10) :
    Processor.Utilization h s = Except.ok (0, s) := by
  apply Processor.Utilization_rejects
  rw [LinuxParser.CpuUtilization_of_line h line counters hline htok]
  exact hlen

/-- C18 as amended, at the line of the counterexample and a sampler that holds
(active 3, total 10). -/
theorem C18_short_row_is_rejected_witness :
    Processor.Utilization (statHost "cpu 10 0 0 10 0 0 0 0\n") (SamplerState.mk 10 3)
      = Except.ok (0, SamplerState.mk 10 3) :=
  C18_short_row_is_rejected (statHost "cpu 10 0 0 10 0 0 0 0\n") (SamplerState.mk 10 3)
    "cpu 10 0 0 10 0 0 0 0" ["10", "0", "0", "10", "0", "0", "0", "0"]
    (by decide) (by decide) (by decide)

/-- C20, the code at a failing input. The stat line of process 1 has 22
fields and the letter `u` in field 14. `LinuxParser::CpuUtilization(pid)`
returns that field first, `std::stof` throws `std::invalid_argument` on it, and
`Process::CpuUtilization()` leaves through that exception: it does not return
0.0. Everywhere else the claim holds: on every machine and for every process
the vector has exactly 4 elements, the method returns 0.0 whenever it returns,
and it returns whenever `std::stof` converts the four strings. -/
theorem C20_throws_on_letter_field :
    LinuxParser.CpuUtilizationPid (exampleHost "" letterStat) 1 = ["u", "50", "25", "25"]
      ∧ (exampleHost "" letterStat).stof "u" = Except.error CppError.invalid_argument
      ∧ Process.CpuUtilization (exampleHost "" letterStat) (Process.mk 1 [] 0)
        = Except.error CppError.invalid_argument
      ∧ (∀ (h : Host) (p : Process),
          (LinuxParser.CpuUtilizationPid h p.pid_).length = 4
          ∧ (∀ q, Process.CpuUtilization h p = Except.ok q → q = 0)
          ∧ ((∀ tok ∈ LinuxParser.CpuUtilizationPid h p.pid_, returns (h.stof tok) = true) →
              Process.CpuUtilization h p = Except.ok 0)) := by
  refine ⟨by decide, by decide, by decide, ?_⟩
  intro h p
  refine ⟨?_, Process.CpuUtilization_zero_of_ok h p, ?_⟩
  · obtain ⟨a, b, c, d, habcd⟩ := LinuxParser.CpuUtilizationPid_four h p.pid_
    rw [habcd]
    rfl
  · intro hall
    apply Process.CpuUtilization_of_stof
    intro tok htok
    exact exists_of_returns (hall tok htok)

/-- For every machine and every process, the vector
`Process::CpuUtilization()` receives has exactly 4 elements; whenever the method
returns, it returns 0.0; and it returns whenever `std::stof` converts the four
strings, which it does when the stat file cannot be read or has fewer than 17
fields, the strings then being "0". -/
theorem Process.CpuUtilization_constant (h : Host) (p : Process) :
    (LinuxParser.CpuUtilizationPid h p.pid_).length = 4
    ∧ (∀ q, Process.CpuUtilization h p = Except.ok q → q = 0)
    ∧ ((∀ tok ∈ LinuxParser.CpuUtilizationPid h p.pid_, returns (h.stof tok) = true) →
        Process.CpuUtilization h p = Except.ok 0)
    ∧ (returns (h.stof "0") = true →
        (h.pidStat p.pid_ = none ∨
          ∃ line, ReadLine (h.pidStat p.pid_) = some line ∧ (SplitString line).length < 17) →
        Process.CpuUtilization h p = Except.ok 0) := by
  have hstof : (∀ tok ∈ LinuxParser.CpuUtilizationPid h p.pid_, returns (h.stof tok) = true) →
      Process.CpuUtilization h p = Except.ok 0 := by
    intro hall
    apply Process.CpuUtilization_of_stof
    intro tok htok
    exact exists_of_returns (hall tok htok)
  refine ⟨?_, Process.CpuUtilization_zero_of_ok h p, hstof, ?_⟩
  · obtain ⟨a, b, c, d, habcd⟩ := LinuxParser.CpuUtilizationPid_four h p.pid_
    rw [habcd]
    rfl
  · intro h0 hshort
    have hzeros : LinuxParser.CpuUtilizationPid h p.pid_ = ["0", "0", "0", "0"] := by
      rcases hshort with hnone | ⟨line, hline, hlen⟩
      · unfold LinuxParser.CpuUtilizationPid ReadLine
        rw [hnone]
        rfl
      · unfold LinuxParser.CpuUtilizationPid
        rw [hline]
        simp only [hlen, if_true]
    apply hstof
    intro tok htok
    rw [hzeros] at htok
    simp only [List.mem_cons, List.mem_singleton, List.not_mem_nil, or_false, or_self] at htok
    rw [htok]
    exact h0

/-- The method at process 1 of the example machine (22 numeric fields) and at
process 2, whose stat file cannot be read. -/
theorem Process.CpuUtilization_constant_examples :
    Process.CpuUtilization (exampleHost "" lifetimeStat) (Process.mk 1 [] 0) = Except.ok 0
      ∧ Process.CpuUtilization (exampleHost "" lifetimeStat) (Process.mk 2 [] 0) = Except.ok 0 :=
  ⟨(Process.CpuUtilization_constant (exampleHost "" lifetimeStat) (Process.mk 1 [] 0)).2.2.1
      (by decide),
   (Process.CpuUtilization_constant (exampleHost "" lifetimeStat) (Process.mk 2 [] 0)).2.2.2
      (by decide) (Or.inl (by decide))⟩

/-! ## The operating system name -/

theorem LinuxParser.prettyName_of_key_ne (line : List Char)
    (hkey : LinuxParser.lineKey line ≠ "PRETTY_NAME") : LinuxParser.prettyName line = none := by
  unfold LinuxParser.prettyName
  simp only [hkey, if_false, ite_self]

theorem LinuxParser.prettyName_of_value (value : List Char)
    (hvalue : value.dropWhile isspace ≠ []) :
    LinuxParser.prettyName ("PRETTY_NAME=".data ++ value)
      = some (String.mk ((value.dropWhile isspace).filter (fun c => c != '"'))) := by
  have hkey : LinuxParser.lineKey ("PRETTY_NAME=".data ++ value) = "PRETTY_NAME" := by
    unfold LinuxParser.lineKey
    simp [List.takeWhile]
  have hdrop : List.dropWhile (fun c => c != '=') ("PRETTY_NAME=".data ++ value)
      = '=' :: value := by
    simp [List.dropWhile]
  unfold LinuxParser.prettyName
  rw [hkey, hdrop]
  simp only [if_true]
  cases hv : value.dropWhile isspace with
  | nil => exact absurd hv hvalue
  | cons c cs => simp

theorem LinuxParser.osLines_append (before after : List (List Char)) (line : List Char)
    (hbefore : ∀ l ∈ before, LinuxParser.prettyName l = none) :
    LinuxParser.osLines (before ++ line :: after)
      = LinuxParser.osLines (line :: after) := by
  induction before with
  | nil => rfl
  | cons b bs ih =>
    have hb := hbefore b (List.mem_cons_self b bs)
    rw [List.cons_append, LinuxParser.osLines, hb]
    exact ih (fun l hl => hbefore l (List.mem_cons_of_mem b hl))

theorem LinuxParser.osLines_unknown (lines : List (List Char))
    (hall : ∀ l ∈ lines, LinuxParser.prettyName l = none) :
    LinuxParser.osLines lines = "Unknown OS" := by
  induction lines with
  | nil => rfl
  | cons b bs ih =>
    rw [LinuxParser.osLines, hall b (List.mem_cons_self b bs)]
    exact ih (fun l hl => hall l (List.mem_cons_of_mem b hl))

theorem LinuxParser.prettyName_of_blank (line : List Char)
    (hkey : LinuxParser.lineKey line = "PRETTY_NAME")
    (hblank : ∀ c ∈ line.drop 12, isspace c = true) : LinuxParser.prettyName line = none := by
  have htake : line.takeWhile (fun c => c != '=') = "PRETTY_NAME".data := by
    unfold LinuxParser.lineKey at hkey
    simpa using congrArg String.data hkey
  have hsplit : line.takeWhile (fun c => c != '=') ++ line.dropWhile (fun c => c != '=') = line :=
    List.takeWhile_append_dropWhile _ line
  unfold LinuxParser.prettyName
  rw [hkey]
  simp only [if_true]
  cases hd : line.dropWhile (fun c => c != '=') with
  | nil => simp
  | cons c rest =>
    have hline : line = "PRETTY_NAME".data ++ c :: rest := by
      rw [← hsplit, htake, hd]
    have hrest : line.drop 12 = rest := by
      rw [hline]
      rfl
    rw [hrest] at hblank
    have hnil : rest.dropWhile isspace = [] := by
      rw [List.dropWhile_eq_nil_iff]
      exact hblank
    simp only [hnil, ite_self]

theorem LinuxParser.prettyName_of_passed (line : List Char)
    (hpass : LinuxParser.lineKey line ≠ "PRETTY_NAME" ∨ ∀ c ∈ line.drop 12, isspace c = true) :
    LinuxParser.prettyName line = none := by
  by_cases hkey : LinuxParser.lineKey line = "PRETTY_NAME"
  · rcases hpass with hne | hblank
    · exact absurd hkey hne
    · exact LinuxParser.prettyName_of_blank line hkey hblank
  · exact LinuxParser.prettyName_of_key_ne line hkey

/-- C16, refuted. In the line `PRETTY_NAME="A "B" C"` the value has quote
characters inside; `LinuxParser::OperatingSystem()` removes every one of them
and returns `A B C`, not `A "B" C`. In the line `PRETTY_NAME=  lead` the value
starts with two blanks, which are dropped. -/
theorem C16_inner_quotes_counterexample :
    LinuxParser.OperatingSystem (osHost "NAME=x\nPRETTY_NAME=\"A \"B\" C\"\n") = "A B C"
      ∧ "A B C" ≠ "A \"B\" C"
      ∧ LinuxParser.OperatingSystem (osHost "PRETTY_NAME=  lead\n") = "lead" := by
  decide

/-- C16, amended. A line is passed over when its key, the text before its
first `=`, is not `PRETTY_NAME`, and also when the key is `PRETTY_NAME` and
what follows the `=` (the line from its 13th character on) is empty or blank.
`LinuxParser::OperatingSystem()` returns "Unknown OS" when the file cannot be
read and when every line is passed over. When the first line that is not
passed over is `PRETTY_NAME=` followed by a value that is not blank, it
returns the value without its leading whitespace and without any of its
double-quote characters, the other characters in order. So for a value in
double quotes with no quote inside, it returns what is between the quotes. -/
theorem C16_pretty_name_without_quotes (h : Host) :
    (h.osRelease = none → LinuxParser.OperatingSystem h = "Unknown OS")
    ∧ (∀ content, h.osRelease = some content →
        (∀ line ∈ getlines content, LinuxParser.lineKey line ≠ "PRETTY_NAME"
          ∨ ∀ c ∈ line.drop 12, isspace c = true) →
        LinuxParser.OperatingSystem h = "Unknown OS")
    ∧ (∀ content before value after, h.osRelease = some content →
        getlines content = before ++ ("PRETTY_NAME=".data ++ value) :: after →
        (∀ line ∈ before, LinuxParser.lineKey line ≠ "PRETTY_NAME"
          ∨ ∀ c ∈ line.drop 12, isspace c = true) →
        value.dropWhile isspace ≠ [] →
        LinuxParser.OperatingSystem h
          = String.mk ((value.dropWhile isspace).filter (fun c => c != '"')))
    ∧ (∀ content before inner after, h.osRelease = some content →
        getlines content = before ++ ("PRETTY_NAME=\"".data ++ inner ++ ['"']) :: after →
        (∀ line ∈ before, LinuxParser.lineKey line ≠ "PRETTY_NAME"
          ∨ ∀ c ∈ line.drop 12, isspace c = true) →
        '"' ∉ inner →
        LinuxParser.OperatingSystem h = String.mk inner) := by
  have hvalue : ∀ content before value after, h.osRelease = some content →
      getlines content = before ++ ("PRETTY_NAME=".data ++ value) :: after →
      (∀ line ∈ before, LinuxParser.lineKey line ≠ "PRETTY_NAME"
        ∨ ∀ c ∈ line.drop 12, isspace c = true) →
      value.dropWhile isspace ≠ [] →
      LinuxParser.OperatingSystem h
        = String.mk ((value.dropWhile isspace).filter (fun c => c != '"')) := by
    intro content before value after hc hlines hbefore hv
    unfold LinuxParser.OperatingSystem
    rw [hc]
    simp only [hlines]
    rw [LinuxParser.osLines_append before after _
      (fun l hl => LinuxParser.prettyName_of_passed l (hbefore l hl))]
    rw [LinuxParser.osLines, LinuxParser.prettyName_of_value value hv]
  refine ⟨?_, ?_, hvalue, ?_⟩
  · intro hnone
    unfold LinuxParser.OperatingSystem
    rw [hnone]
  · intro content hc hall
    unfold LinuxParser.OperatingSystem
    rw [hc]
    exact LinuxParser.osLines_unknown _
      (fun l hl => LinuxParser.prettyName_of_passed l (hall l hl))
  · intro content before inner after hc hlines hbefore hinner
    have hshape : "PRETTY_NAME=\"".data ++ inner ++ ['"']
        = "PRETTY_NAME=".data ++ ('"' :: (inner ++ ['"'])) := by
      simp
    rw [hshape] at hlines
    have hdrop : List.dropWhile isspace ('"' :: (inner ++ ['"'])) = '"' :: (inner ++ ['"']) := by
      rw [List.dropWhile_cons_of_neg (by decide)]
    rw [hvalue content before _ after hc hlines hbefore (by rw [hdrop]; simp), hdrop]
    congr 1
    have hkeep : inner.filter (fun c => c != '"') = inner := by
      apply List.filter_eq_self.mpr
      intro c hc'
      have hne : c ≠ '"' := fun he => hinner (he ▸ hc')
      simp [hne]
    simp [List.filter_cons, List.filter_append, hkeep]

/-- C16 as amended, at the example of the claim, at a file without the key,
at a value with quotes inside, at a file whose first `PRETTY_NAME` line has an
empty value and whose second has the value `second`, and at a file whose only
`PRETTY_NAME` line has a blank value. -/
theorem C16_pretty_name_without_quotes_witness :
    LinuxParser.OperatingSystem (osHost "NAME=\"Test\"\nPRETTY_NAME=\"Test OS 1.0\"\nID=test\n")
        = "Test OS 1.0"
      ∧ LinuxParser.OperatingSystem (osHost "NAME=\"Test\"\nID=test\n") = "Unknown OS"
      ∧ LinuxParser.OperatingSystem (osHost "NAME=x\nPRETTY_NAME=\"A \"B\" C\"\n")
        = String.mk ((List.dropWhile isspace "\"A \"B\" C\"".data).filter (fun c => c != '"'))
      ∧ LinuxParser.OperatingSystem (osHost "PRETTY_NAME=\nPRETTY_NAME=second\n")
        = String.mk ((List.dropWhile isspace "second".data).filter (fun c => c != '"'))
      ∧ LinuxParser.OperatingSystem (osHost "NAME=x\nPRETTY_NAME=  \nPRETTY_NAME\n")
        = "Unknown OS" :=
  ⟨(C16_pretty_name_without_quotes
      (osHost "NAME=\"Test\"\nPRETTY_NAME=\"Test OS 1.0\"\nID=test\n")).2.2.2
      "NAME=\"Test\"\nPRETTY_NAME=\"Test OS 1.0\"\nID=test\n" ["NAME=\"Test\"".data]
      "Test OS 1.0".data ["ID=test".data] (by decide) (by decide) (by decide) (by decide),
   (C16_pretty_name_without_quotes (osHost "NAME=\"Test\"\nID=test\n")).2.1
      "NAME=\"Test\"\nID=test\n" (by decide) (by decide),
   (C16_pretty_name_without_quotes (osHost "NAME=x\nPRETTY_NAME=\"A \"B\" C\"\n")).2.2.1
      "NAME=x\nPRETTY_NAME=\"A \"B\" C\"\n" ["NAME=x".data] "\"A \"B\" C\"".data []
      (by decide) (by decide) (by decide) (by decide),
   (C16_pretty_name_without_quotes (osHost "PRETTY_NAME=\nPRETTY_NAME=second\n")).2.2.1
      "PRETTY_NAME=\nPRETTY_NAME=second\n" ["PRETTY_NAME=".data] "second".data []
      (by decide) (by decide) (by decide) (by decide),
   (C16_pretty_name_without_quotes (osHost "NAME=x\nPRETTY_NAME=  \nPRETTY_NAME\n")).2.1
      "NAME=x\nPRETTY_NAME=  \nPRETTY_NAME\n" (by decide) (by decide)⟩

/-! ## Reading tokens and numbers from a stream -/

theorem dropWhile_append_of_all {α : Type} (p : α → Bool) (pre l : List α)
    (hpre : ∀ c ∈ pre, p c = true) : (pre ++ l).dropWhile p = l.dropWhile p := by
  induction pre with
  | nil => rfl
  | cons c cs ih =>
    rw [List.cons_append, List.dropWhile_cons_of_pos (hpre c (List.mem_cons_self c cs))]
    exact ih (fun d hd => hpre d (List.mem_cons_of_mem c hd))

theorem dropWhile_of_head {α : Type} (p : α → Bool) (l : List α)
    (hhead : ∀ c, l.head? = some c → p c = false) : l.dropWhile p = l := by
  cases l with
  | nil => rfl
  | cons c cs => rw [List.dropWhile_cons_of_neg (by simp [hhead c rfl])]

theorem takeWhile_append_of_all {α : Type} (p : α → Bool) (a l : List α)
    (ha : ∀ c ∈ a, p c = true) (hhead : ∀ c, l.head? = some c → p c = false) :
    (a ++ l).takeWhile p = a := by
  induction a with
  | nil =>
    cases l with
    | nil => rfl
    | cons c cs => rw [List.nil_append, List.takeWhile_cons_of_neg (by simp [hhead c rfl])]
  | cons c cs ih =>
    rw [List.cons_append, List.takeWhile_cons_of_pos (ha c (List.mem_cons_self c cs)),
      ih (fun d hd => ha d (List.mem_cons_of_mem c hd))]

theorem dropWhile_append_exact {α : Type} (p : α → Bool) (a l : List α)
    (ha : ∀ c ∈ a, p c = true) (hhead : ∀ c, l.head? = some c → p c = false) :
    (a ++ l).dropWhile p = l := by
  rw [dropWhile_append_of_all p a l ha, dropWhile_of_head p l hhead]

theorem isspace_of_isDigit (c : Char) (hc : c.isDigit = true) : isspace c = false := by
  unfold Char.isDigit at hc
  unfold isspace
  have h1 : 48 ≤ c.toNat := by
    have := (Bool.and_eq_true _ _).mp hc
    exact of_decide_eq_true this.1
  simp
  omega

theorem readToken_of_token (pre tok post : List Char)
    (hpre : ∀ c ∈ pre, isspace c = true)
    (htok : ∀ c ∈ tok, isspace c = false) (hne : tok ≠ [])
    (hpost : ∀ c, post.head? = some c → isspace c = true) :
    readToken (pre ++ (tok ++ post)) = some (String.mk tok, post) := by
  have hhead : ∀ c, (tok ++ post).head? = some c → isspace c = false := by
    intro c hc
    cases tok with
    | nil => exact absurd rfl hne
    | cons t ts =>
      simp only [List.cons_append, List.head?_cons, Option.some.injEq] at hc
      rw [← hc]
      exact htok t (List.mem_cons_self t ts)
  have hdrop : (pre ++ (tok ++ post)).dropWhile isspace = tok ++ post :=
    dropWhile_append_exact isspace pre (tok ++ post) hpre hhead
  have htake : (tok ++ post).takeWhile (fun c => !isspace c) = tok :=
    takeWhile_append_of_all _ tok post (fun c hc => by simp [htok c hc])
      (fun c hc => by simp [hpost c hc])
  have hrest : (tok ++ post).dropWhile (fun c => !isspace c) = post :=
    dropWhile_append_exact _ tok post (fun c hc => by simp [htok c hc])
      (fun c hc => by simp [hpost c hc])
  unfold readToken
  rw [hdrop]
  cases htp : tok ++ post with
  | nil =>
    cases tok with
    | nil => exact absurd rfl hne
    | cons t ts => simp at htp
  | cons c cs =>
    simp only
    rw [← htp, htake, hrest]

theorem scanLong_of_digits (digits post : List Char)
    (hdig : ∀ c ∈ digits, c.isDigit = true) (hne : digits ≠ [])
    (hpost : ∀ c, post.head? = some c → c.isDigit = false) :
    scanLong (digits ++ post) = (false, digits) ∧ afterLong (digits ++ post) = post := by
  have htake : (digits ++ post).takeWhile Char.isDigit = digits :=
    takeWhile_append_of_all _ digits post hdig hpost
  have hrest : (digits ++ post).dropWhile Char.isDigit = post :=
    dropWhile_append_exact _ digits post hdig hpost
  cases digits with
  | nil => exact absurd rfl hne
  | cons d ds =>
    have hd := hdig d (List.mem_cons_self d ds)
    have hsp : isspace d = false := isspace_of_isDigit d hd
    have hminus : d ≠ '-' := by
      intro he
      rw [he] at hd
      exact absurd hd (by decide)
    have hplus : d ≠ '+' := by
      intro he
      rw [he] at hd
      exact absurd hd (by decide)
    have hdrop : ((d :: ds) ++ post).dropWhile isspace = (d :: ds) ++ post := by
      rw [List.cons_append, List.dropWhile_cons_of_neg (by simp [hsp])]
    constructor
    · unfold scanLong
      rw [hdrop]
      rw [List.cons_append] at htake ⊢
      split
      · rename_i heq
        exact absurd (List.cons.inj heq).1 hminus
      · rename_i heq
        exact absurd (List.cons.inj heq).1 hplus
      · rw [htake]
    · rw [List.cons_append] at hrest ⊢
      unfold afterLong
      split
      · rename_i heq
        exact absurd (List.cons.inj heq).1 hminus
      · rename_i heq
        exact absurd (List.cons.inj heq).1 hplus
      · exact hrest

theorem readLong_of_digits (pre digits post : List Char)
    (hpre : ∀ c ∈ pre, isspace c = true)
    (hdig : ∀ c ∈ digits, c.isDigit = true) (hne : digits ≠ [])
    (hpost : ∀ c, post.head? = some c → c.isDigit = false)
    (hfit : (digitsVal digits : Int) ≤ LONG_MAX) :
    readLong (pre ++ (digits ++ post)) = some ((digitsVal digits : Int), post) := by
  have hhead : ∀ c, (digits ++ post).head? = some c → isspace c = false := by
    intro c hc
    cases digits with
    | nil => exact absurd rfl hne
    | cons t ts =>
      simp only [List.cons_append, List.head?_cons, Option.some.injEq] at hc
      rw [← hc]
      exact isspace_of_isDigit t (hdig t (List.mem_cons_self t ts))
  have hdrop : (pre ++ (digits ++ post)).dropWhile isspace = digits ++ post :=
    dropWhile_append_exact isspace pre (digits ++ post) hpre hhead
  obtain ⟨hscan, hafter⟩ := scanLong_of_digits digits post hdig hne hpost
  have hrange : ¬ ((digitsVal digits : Int) < LONG_MIN ∨ LONG_MAX < (digitsVal digits : Int)) := by
    unfold LONG_MIN
    unfold LONG_MAX at hfit ⊢
    omega
  unfold readLong
  rw [hdrop]
  cases hdp : digits ++ post with
  | nil =>
    cases digits with
    | nil => exact absurd rfl hne
    | cons t ts => simp at hdp
  | cons c cs =>
    simp only
    rw [← hdp, hscan, hafter]
    have hemp : digits.isEmpty = false := by
      cases digits with
      | nil => exact absurd rfl hne
      | cons t ts => rfl
    simp only [hemp, Bool.false_eq_true, if_false, hrange]

/-! ## The resident memory of a process -/

theorem LinuxParser.memLoop_skip (steps : Nat) (cs r : List Char) (key : String)
    (m : LinuxParser.MemCounters)
    (htok : readToken cs = some (key, r)) (hkey : isMemKey key = false) :
    LinuxParser.memLoop (steps + 1) cs m = LinuxParser.memLoop steps r m := by
  unfold isMemKey at hkey
  simp only [Bool.or_eq_false_iff, decide_eq_false_iff_not] at hkey
  obtain ⟨⟨⟨⟨h1, h2⟩, h3⟩, h4⟩, h5⟩ := hkey
  rw [LinuxParser.memLoop, htok]
  simp only [h1, h2, h3, h4, h5, if_false]

theorem LinuxParser.memLoop_set (steps : Nat) (cs r rest : List Char) (key : String) (v : Int)
    (m : LinuxParser.MemCounters)
    (htok : readToken cs = some (key, r)) (hkey : isMemKey key = true)
    (hlong : readLong r = some (v, rest)) :
    LinuxParser.memLoop (steps + 1) cs m
      = LinuxParser.memLoop steps rest (setCounter key v m) := by
  have hcounter : ∀ old, LinuxParser.readCounter old r = (v, some rest) := by
    intro old
    unfold LinuxParser.readCounter
    rw [hlong]
  unfold isMemKey at hkey
  simp only [Bool.or_eq_true, decide_eq_true_eq] at hkey
  rw [LinuxParser.memLoop, htok]
  simp only [hcounter]
  unfold setCounter
  rcases hkey with (((h1 | h2) | h3) | h4) | h5
  · simp only [h1, if_true]
  · subst h2
    simp only [if_true]
    rfl
  · subst h3
    simp only [if_true]
    rfl
  · subst h4
    simp only [if_true]
    rfl
  · subst h5
    simp only [if_true]
    rfl

theorem LinuxParser.memLoop_end (steps : Nat) (pre : List Char) (m : LinuxParser.MemCounters)
    (hpre : ∀ c ∈ pre, isspace c = true) : LinuxParser.memLoop steps pre m = m := by
  cases steps with
  | zero => rfl
  | succ s =>
    have hdrop : pre.dropWhile isspace = [] := by
      have := dropWhile_append_of_all isspace pre [] hpre
      simpa using this
    rw [LinuxParser.memLoop]
    unfold readToken
    rw [hdrop]

theorem isMemKey_of_digits (digits : List Char) (hdig : ∀ c ∈ digits, c.isDigit = true) :
    isMemKey (String.mk digits) = false := by
  have hkey : ∀ (c : Char) (cs : List Char), c.isDigit = false → String.mk digits ≠ String.mk (c :: cs) := by
    intro c cs hc he
    have hd : digits = c :: cs := by
      simpa using congrArg String.data he
    have := hdig c (by rw [hd]; exact List.mem_cons_self c cs)
    rw [hc] at this
    cases this
  unfold isMemKey
  simp only [Bool.or_eq_false_iff, decide_eq_false_iff_not]
  exact ⟨⟨⟨⟨hkey 'M' _ (by decide), hkey 'M' _ (by decide)⟩, hkey 'M' _ (by decide)⟩,
    hkey 'B' _ (by decide)⟩, hkey 'C' _ (by decide)⟩

theorem setCounter_of_not_key (key : String) (v : Int) (m : LinuxParser.MemCounters)
    (hkey : isMemKey key = false) : setCounter key v m = m := by
  unfold isMemKey at hkey
  simp only [Bool.or_eq_false_iff, decide_eq_false_iff_not] at hkey
  obtain ⟨⟨⟨⟨h1, h2⟩, h3⟩, h4⟩, h5⟩ := hkey
  unfold setCounter
  simp only [h1, h2, h3, h4, h5, if_false]

theorem LinuxParser.memLoop_unit (unit : Bool) (tailText : List Char)
    (m : LinuxParser.MemCounters) (steps : Nat)
    (hsteps : ((if unit then " kB".data else []) ++ '\n' :: tailText).length < steps) :
    ∃ steps', ('\n' :: tailText).length < steps'
      ∧ LinuxParser.memLoop steps ((if unit then " kB".data else []) ++ '\n' :: tailText) m
        = LinuxParser.memLoop steps' ('\n' :: tailText) m := by
  cases unit with
  | false => exact ⟨steps, by simpa using hsteps, rfl⟩
  | true =>
    simp only [if_true] at hsteps ⊢
    obtain ⟨s, rfl⟩ : ∃ s, steps = s + 1 := ⟨steps - 1, by omega⟩
    have htok : readToken ([' '] ++ (['k', 'B'] ++ ('\n' :: tailText)))
        = some (String.mk ['k', 'B'], '\n' :: tailText) := by
      apply readToken_of_token
      · decide
      · decide
      · decide
      · intro c hc
        simp only [List.head?_cons, Option.some.injEq] at hc
        rw [← hc]
        decide
    refine ⟨s, ?_, ?_⟩
    · simp only [List.length_append, List.length_cons] at hsteps ⊢
      have : " kB".data.length = 3 := by decide
      omega
    · exact LinuxParser.memLoop_skip s _ _ _ m htok (by decide)

theorem LinuxParser.memLoop_line (l : MemLine) (hwf : l.WellFormed) (pre tailText : List Char)
    (hpre : ∀ c ∈ pre, isspace c = true) (m : LinuxParser.MemCounters) (steps : Nat)
    (hsteps : (pre ++ (l.body ++ '\n' :: tailText)).length < steps) :
    ∃ steps', ('\n' :: tailText).length < steps'
      ∧ LinuxParser.memLoop steps (pre ++ (l.body ++ '\n' :: tailText)) m
        = LinuxParser.memLoop steps' ('\n' :: tailText)
            (setCounter (String.mk l.key) (digitsVal l.digits : Int) m) := by
  obtain ⟨hkne, hkey, hgne, hgap, hdne, hdig, hfit⟩ := hwf
  have hshape : pre ++ (l.body ++ '\n' :: tailText)
      = pre ++ (l.key ++ (l.gap ++ (l.digits
          ++ ((if l.unit then " kB".data else []) ++ '\n' :: tailText)))) := by
    unfold MemLine.body
    simp only [List.append_assoc]
  have hlen : (pre ++ (l.body ++ '\n' :: tailText)).length
      = pre.length + (l.key.length + (l.gap.length + (l.digits.length
          + ((if l.unit then " kB".data else []) ++ '\n' :: tailText).length))) := by
    rw [hshape]
    simp only [List.length_append]
  have hk1 : 1 ≤ l.key.length := List.length_pos.mpr hkne
  have hg1 : 1 ≤ l.gap.length := List.length_pos.mpr hgne
  have hd1 : 1 ≤ l.digits.length := List.length_pos.mpr hdne
  have hposthead : ∀ c, ((if l.unit then " kB".data else []) ++ '\n' :: tailText).head? = some c →
      isspace c = true ∧ c.isDigit = false := by
    intro c hc
    cases hu : l.unit with
    | false =>
      rw [hu] at hc
      simp only [Bool.false_eq_true, if_false, List.nil_append, List.head?_cons,
        Option.some.injEq] at hc
      rw [← hc]
      decide
    | true =>
      rw [hu] at hc
      have h2 : c = ' ' := by
        have : (" kB".data ++ '\n' :: tailText).head? = some ' ' := rfl
        simp only [if_true] at hc
        rw [this] at hc
        exact (Option.some.inj hc).symm
      rw [h2]
      decide
  have htok1 : readToken (pre ++ (l.key ++ (l.gap ++ (l.digits
      ++ ((if l.unit then " kB".data else []) ++ '\n' :: tailText)))))
      = some (String.mk l.key, l.gap ++ (l.digits
          ++ ((if l.unit then " kB".data else []) ++ '\n' :: tailText))) := by
    apply readToken_of_token pre l.key _ hpre hkey hkne
    intro c hc
    cases hg : l.gap with
    | nil => exact absurd hg hgne
    | cons g gs =>
      rw [hg] at hc
      simp only [List.cons_append, List.head?_cons, Option.some.injEq] at hc
      rw [← hc]
      exact hgap g (by rw [hg]; exact List.mem_cons_self g gs)
  obtain ⟨s, rfl⟩ : ∃ s, steps = s + 1 := ⟨steps - 1, by omega⟩
  rw [hshape]
  cases hmk : isMemKey (String.mk l.key) with
  | true =>
    have hlong := readLong_of_digits l.gap l.digits
      ((if l.unit then " kB".data else []) ++ '\n' :: tailText) hgap hdig hdne
      (fun c hc => (hposthead c hc).2) hfit
    rw [LinuxParser.memLoop_set s _ _ _ _ _ m htok1 hmk hlong]
    exact LinuxParser.memLoop_unit l.unit tailText _ s (by omega)
  | false =>
    rw [LinuxParser.memLoop_skip s _ _ _ m htok1 hmk, setCounter_of_not_key _ _ m hmk]
    have htok2 := readToken_of_token l.gap l.digits
      ((if l.unit then " kB".data else []) ++ '\n' :: tailText) hgap
      (fun c hc => isspace_of_isDigit c (hdig c hc)) hdne (fun c hc => (hposthead c hc).1)
    obtain ⟨s2, rfl⟩ : ∃ s2, s = s2 + 1 := ⟨s - 1, by omega⟩
    rw [LinuxParser.memLoop_skip s2 _ _ _ m htok2 (isMemKey_of_digits l.digits hdig)]
    exact LinuxParser.memLoop_unit l.unit tailText _ s2 (by omega)

theorem LinuxParser.memLoop_text : ∀ (lines : List MemLine) (pre : List Char)
    (m : LinuxParser.MemCounters) (steps : Nat),
    (∀ l ∈ lines, l.WellFormed) → (∀ c ∈ pre, isspace c = true) →
    (pre ++ memText lines).length < steps →
    LinuxParser.memLoop steps (pre ++ memText lines) m
      = lines.foldl (fun acc l => setCounter (String.mk l.key) (digitsVal l.digits : Int) acc) m
  | [], pre, m, steps, _, hpre, _ => by
    rw [memText, List.append_nil]
    exact LinuxParser.memLoop_end steps pre m hpre
  | l :: ls, pre, m, steps, hwf, hpre, hsteps => by
    rw [memText] at hsteps ⊢
    obtain ⟨steps', hlen', hloop⟩ := LinuxParser.memLoop_line l
      (hwf l (List.mem_cons_self l ls)) pre (memText ls) hpre m steps hsteps
    rw [hloop, List.foldl_cons]
    exact LinuxParser.memLoop_text ls ['\n'] _ steps'
      (fun x hx => hwf x (List.mem_cons_of_mem l hx)) (by decide) hlen'

theorem setCounter_fields (key : String) (v : Int) (m : LinuxParser.MemCounters) :
    setCounter key v m = LinuxParser.MemCounters.mk
      (if key = "MemTotal:" then v else m.memTotal)
      (if key = "MemAvailable:" then v else m.memAvailable)
      (if key = "MemFree:" then v else m.memFree)
      (if key = "Buffers:" then v else m.buffers)
      (if key = "Cached:" then v else m.cached) := by
  unfold setCounter
  by_cases h1 : key = "MemTotal:"
  · subst h1
    rfl
  by_cases h2 : key = "MemAvailable:"
  · subst h2
    rfl
  by_cases h3 : key = "MemFree:"
  · subst h3
    rfl
  by_cases h4 : key = "Buffers:"
  · subst h4
    rfl
  by_cases h5 : key = "Cached:"
  · subst h5
    rfl
  simp only [h1, h2, h3, h4, h5, if_false]

theorem setCounter_foldl : ∀ (lines : List MemLine) (m : LinuxParser.MemCounters),
    lines.foldl (fun acc l => setCounter (String.mk l.key) (digitsVal l.digits : Int) acc) m
      = LinuxParser.MemCounters.mk
          (lines.foldl (fun acc l =>
            if String.mk l.key = "MemTotal:" then (digitsVal l.digits : Int) else acc) m.memTotal)
          (lines.foldl (fun acc l =>
            if String.mk l.key = "MemAvailable:" then (digitsVal l.digits : Int) else acc)
            m.memAvailable)
          (lines.foldl (fun acc l =>
            if String.mk l.key = "MemFree:" then (digitsVal l.digits : Int) else acc) m.memFree)
          (lines.foldl (fun acc l =>
            if String.mk l.key = "Buffers:" then (digitsVal l.digits : Int) else acc) m.buffers)
          (lines.foldl (fun acc l =>
            if String.mk l.key = "Cached:" then (digitsVal l.digits : Int) else acc) m.cached)
  | [], m => rfl
  | l :: ls, m => by
    simp only [List.foldl_cons]
    rw [setCounter_foldl ls, setCounter_fields]

theorem LinuxParser.memScan_of_text (content : String) (lines : List MemLine)
    (htext : content.data = memText lines) (hwf : ∀ l ∈ lines, l.WellFormed) :
    LinuxParser.memScan content = LinuxParser.MemCounters.mk (memValue "MemTotal:" lines)
      (memValue "MemAvailable:" lines) (memValue "MemFree:" lines) (memValue "Buffers:" lines)
      (memValue "Cached:" lines) := by
  unfold LinuxParser.memScan
  rw [htext]
  have h := LinuxParser.memLoop_text lines [] (LinuxParser.MemCounters.mk 0 0 0 0 0)
    ((memText lines).length + 1) hwf (by intro c hc; cases hc) (by simp)
  rw [List.nil_append] at h
  rw [h, setCounter_foldl]
  rfl

theorem memValue_of_absent (key : String) : ∀ (lines : List MemLine) (acc : Int),
    (∀ l ∈ lines, String.mk l.key ≠ key) →
    lines.foldl (fun acc l => if String.mk l.key = key then (digitsVal l.digits : Int) else acc)
      acc = acc
  | [], _, _ => rfl
  | l :: ls, acc, h => by
    rw [List.foldl_cons, if_neg (h l (List.mem_cons_self l ls))]
    exact memValue_of_absent key ls acc (fun x hx => h x (List.mem_cons_of_mem l hx))

theorem LinuxParser.MemoryUtilization_of_scan (h : Host) (content : String)
    (hfile : h.meminfo = some content) :
    LinuxParser.MemoryUtilization h
      = if (LinuxParser.memScan content).memTotal = 0 then 0
        else if (LinuxParser.memScan content).memAvailable = 0 then
          1 - ((addLong (addLong (LinuxParser.memScan content).memFree
                (LinuxParser.memScan content).buffers) (LinuxParser.memScan content).cached : Int) : ℚ)
              / ((LinuxParser.memScan content).memTotal : ℚ)
        else 1 - ((LinuxParser.memScan content).memAvailable : ℚ)
              / ((LinuxParser.memScan content).memTotal : ℚ) := by
  unfold LinuxParser.MemoryUtilization
  rw [hfile]
  simp only
  by_cases hT : (LinuxParser.memScan content).memTotal = 0
  · rw [if_pos hT, if_pos hT]
  · rw [if_neg hT, if_neg hT]
    by_cases hA : (LinuxParser.memScan content).memAvailable = 0
    · rw [if_pos hA, if_pos hA]
    · rw [if_neg hA, if_neg hA]

theorem addLong_eq_sum3 (a b c : Int) (hfit : InLong (a + b + c)) :
    addLong (addLong a b) c = a + b + c := by
  unfold InLong LONG_MIN LONG_MAX at hfit
  unfold addLong wrapLong
  omega

/-- C11, the code at a failing input. The memory-info text has the line
`MemAvailable: 0 kB`, with `MemTotal` 1000, `MemFree` 100, `Buffers` 50 and
`Cached` 50. The entry is present with the value 0, so the claim, like the
comment `If MemAvailable is missing, estimate it` of the code, gives
1 - 0/1000 = 1. `LinuxParser::MemoryUtilization()` takes the 0 it read for a
missing entry, estimates 100 + 50 + 50 and returns 4/5, the value it returns
for the same text without the `MemAvailable:` line. -/
theorem C11_present_zero_is_estimated :
    LinuxParser.memScan
        "MemTotal: 1000 kB\nMemFree: 100 kB\nMemAvailable: 0 kB\nBuffers: 50 kB\nCached: 50 kB\n"
      = LinuxParser.MemCounters.mk 1000 0 100 50 50
    ∧ LinuxParser.MemoryUtilization (meminfoHost
        "MemTotal: 1000 kB\nMemFree: 100 kB\nMemAvailable: 0 kB\nBuffers: 50 kB\nCached: 50 kB\n")
      = 4 / 5
    ∧ LinuxParser.MemoryUtilization (meminfoHost
        "MemTotal: 1000 kB\nMemFree: 100 kB\nMemAvailable: 0 kB\nBuffers: 50 kB\nCached: 50 kB\n")
      ≠ 1 - (0 : ℚ) / 1000
    ∧ LinuxParser.MemoryUtilization (meminfoHost
        "MemTotal: 1000 kB\nMemFree: 100 kB\nBuffers: 50 kB\nCached: 50 kB\n")
      = 4 / 5 := by
  have hscan : LinuxParser.memScan
      "MemTotal: 1000 kB\nMemFree: 100 kB\nMemAvailable: 0 kB\nBuffers: 50 kB\nCached: 50 kB\n"
      = LinuxParser.MemCounters.mk 1000 0 100 50 50 := by decide
  have hscan2 : LinuxParser.memScan
      "MemTotal: 1000 kB\nMemFree: 100 kB\nBuffers: 50 kB\nCached: 50 kB\n"
      = LinuxParser.MemCounters.mk 1000 0 100 50 50 := by decide
  have hsum : addLong (addLong 100 50) 50 = 200 := by decide
  have hval : LinuxParser.MemoryUtilization (meminfoHost
      "MemTotal: 1000 kB\nMemFree: 100 kB\nMemAvailable: 0 kB\nBuffers: 50 kB\nCached: 50 kB\n")
      = 4 / 5 := by
    rw [LinuxParser.MemoryUtilization_of_scan _ _ rfl, hscan]
    simp only [hsum]
    norm_num
  have hval2 : LinuxParser.MemoryUtilization (meminfoHost
      "MemTotal: 1000 kB\nMemFree: 100 kB\nBuffers: 50 kB\nCached: 50 kB\n")
      = 4 / 5 := by
    rw [LinuxParser.MemoryUtilization_of_scan _ _ rfl, hscan2]
    simp only [hsum]
    norm_num
  refine ⟨hscan, hval, ?_, hval2⟩
  rw [hval]
  norm_num

/-- What `LinuxParser::MemoryUtilization()` returns on a memory-info text made
of lines `key`, whitespace, a decimal number that fits in a `long`, and
possibly ` kB`. With `T`, `A`, `F`, `B`, `C` the values of `MemTotal:`,
`MemAvailable:`, `MemFree:`, `Buffers:` and `Cached:` (0 for a key without a
line) and `F + B + C` in the range of a `long`, it returns 0 when `T` is 0, in
particular when `MemTotal:` is absent; `1 - (F + B + C)/T` when `A` is 0,
whether `MemAvailable:` is absent or present with the value 0; and `1 - A/T`
otherwise, whatever `F`, `B` and `C` are. It returns 0 when the file cannot be
read. -/
theorem LinuxParser.MemoryUtilization_of_text (h : Host) :
    (h.meminfo = none → LinuxParser.MemoryUtilization h = 0)
    ∧ (∀ (content : String) (lines : List MemLine),
        h.meminfo = some content → content.data = memText lines →
        (∀ l ∈ lines, l.WellFormed) →
        InLong (memValue "MemFree:" lines + memValue "Buffers:" lines
          + memValue "Cached:" lines) →
        (LinuxParser.MemoryUtilization h
            = if memValue "MemTotal:" lines = 0 then 0
              else if memValue "MemAvailable:" lines = 0 then
                1 - ((memValue "MemFree:" lines + memValue "Buffers:" lines
                      + memValue "Cached:" lines : Int) : ℚ) / (memValue "MemTotal:" lines : ℚ)
              else 1 - (memValue "MemAvailable:" lines : ℚ) / (memValue "MemTotal:" lines : ℚ))
        ∧ ((∀ l ∈ lines, String.mk l.key ≠ "MemTotal:") → memValue "MemTotal:" lines = 0)
        ∧ ((∀ l ∈ lines, String.mk l.key ≠ "MemAvailable:") →
            memValue "MemAvailable:" lines = 0)) := by
  refine ⟨?_, ?_⟩
  · intro hnone
    unfold LinuxParser.MemoryUtilization
    rw [hnone]
  · intro content lines hfile htext hwf hsum
    refine ⟨?_, memValue_of_absent _ lines 0, memValue_of_absent _ lines 0⟩
    rw [LinuxParser.MemoryUtilization_of_scan h content hfile,
      LinuxParser.memScan_of_text content lines htext hwf]
    simp only
    rw [addLong_eq_sum3 _ _ _ hsum]

/-- The function at `MemTotal` 1000 and `MemAvailable` 250, which gives 3/4
whatever the other counters are; at a text without `MemAvailable:`, which
gives 1 - (100 + 50 + 50)/1000; at a text without `MemTotal:`; and at a file
that cannot be read. -/
theorem LinuxParser.MemoryUtilization_examples :
    LinuxParser.MemoryUtilization (meminfoHost
        "MemTotal:       1000 kB\nMemFree: 7 kB\nMemAvailable:   250 kB\nCached: 9\n") = 3 / 4
    ∧ LinuxParser.MemoryUtilization (meminfoHost
        "MemTotal: 1000 kB\nMemFree: 100 kB\nBuffers: 50 kB\nCached: 50 kB\n") = 4 / 5
    ∧ LinuxParser.MemoryUtilization (meminfoHost "MemFree: 100 kB\nMemAvailable: 250 kB\n") = 0
    ∧ LinuxParser.MemoryUtilization (exampleHost "" (fun _ => none)) = 0 := by
  have h1 := ((LinuxParser.MemoryUtilization_of_text (meminfoHost
      "MemTotal:       1000 kB\nMemFree: 7 kB\nMemAvailable:   250 kB\nCached: 9\n")).2
    "MemTotal:       1000 kB\nMemFree: 7 kB\nMemAvailable:   250 kB\nCached: 9\n"
    [MemLine.mk "MemTotal:".data "       ".data "1000".data true,
     MemLine.mk "MemFree:".data " ".data "7".data true,
     MemLine.mk "MemAvailable:".data "   ".data "250".data true,
     MemLine.mk "Cached:".data " ".data "9".data false]
    rfl (by decide) (by decide) (by decide)).1
  have h2 := ((LinuxParser.MemoryUtilization_of_text (meminfoHost
      "MemTotal: 1000 kB\nMemFree: 100 kB\nBuffers: 50 kB\nCached: 50 kB\n")).2
    "MemTotal: 1000 kB\nMemFree: 100 kB\nBuffers: 50 kB\nCached: 50 kB\n"
    [MemLine.mk "MemTotal:".data " ".data "1000".data true,
     MemLine.mk "MemFree:".data " ".data "100".data true,
     MemLine.mk "Buffers:".data " ".data "50".data true,
     MemLine.mk "Cached:".data " ".data "50".data true]
    rfl (by decide) (by decide) (by decide)).1
  have h3 := ((LinuxParser.MemoryUtilization_of_text (meminfoHost
      "MemFree: 100 kB\nMemAvailable: 250 kB\n")).2
    "MemFree: 100 kB\nMemAvailable: 250 kB\n"
    [MemLine.mk "MemFree:".data " ".data "100".data true,
     MemLine.mk "MemAvailable:".data " ".data "250".data true]
    rfl (by decide) (by decide) (by decide)).1
  have v1 : memValue "MemTotal:"
      [MemLine.mk "MemTotal:".data "       ".data "1000".data true,
       MemLine.mk "MemFree:".data " ".data "7".data true,
       MemLine.mk "MemAvailable:".data "   ".data "250".data true,
       MemLine.mk "Cached:".data " ".data "9".data false] = 1000 := by decide
  have v2 : memValue "MemAvailable:"
      [MemLine.mk "MemTotal:".data "       ".data "1000".data true,
       MemLine.mk "MemFree:".data " ".data "7".data true,
       MemLine.mk "MemAvailable:".data "   ".data "250".data true,
       MemLine.mk "Cached:".data " ".data "9".data false] = 250 := by decide
  have v3 : memValue "MemTotal:"
      [MemLine.mk "MemTotal:".data " ".data "1000".data true,
       MemLine.mk "MemFree:".data " ".data "100".data true,
       MemLine.mk "Buffers:".data " ".data "50".data true,
       MemLine.mk "Cached:".data " ".data "50".data true] = 1000 := by decide
  have v4 : memValue "MemAvailable:"
      [MemLine.mk "MemTotal:".data " ".data "1000".data true,
       MemLine.mk "MemFree:".data " ".data "100".data true,
       MemLine.mk "Buffers:".data " ".data "50".data true,
       MemLine.mk "Cached:".data " ".data "50".data true] = 0 := by decide
  have v5 : memValue "MemFree:"
      [MemLine.mk "MemTotal:".data " ".data "1000".data true,
       MemLine.mk "MemFree:".data " ".data "100".data true,
       MemLine.mk "Buffers:".data " ".data "50".data true,
       MemLine.mk "Cached:".data " ".data "50".data true]
      + memValue "Buffers:"
      [MemLine.mk "MemTotal:".data " ".data "1000".data true,
       MemLine.mk "MemFree:".data " ".data "100".data true,
       MemLine.mk "Buffers:".data " ".data "50".data true,
       MemLine.mk "Cached:".data " ".data "50".data true]
      + memValue "Cached:"
      [MemLine.mk "MemTotal:".data " ".data "1000".data true,
       MemLine.mk "MemFree:".data " ".data "100".data true,
       MemLine.mk "Buffers:".data " ".data "50".data true,
       MemLine.mk "Cached:".data " ".data "50".data true] = 200 := by decide
  have v6 : memValue "MemTotal:"
      [MemLine.mk "MemFree:".data " ".data "100".data true,
       MemLine.mk "MemAvailable:".data " ".data "250".data true] = 0 := by decide
  rw [v1, v2] at h1
  rw [v3, v4, v5] at h2
  rw [v6] at h3
  refine ⟨?_, ?_, ?_, (LinuxParser.MemoryUtilization_of_text (exampleHost "" (fun _ => none))).1 rfl⟩
  · rw [h1]
    norm_num
  · rw [h2]
    norm_num
  · rw [h3]
    rfl

/-! ## The sampler under monotonic counters -/

theorem ratio_in_unit (a t : Int) (ha : 0 ≤ a) (hat : a ≤ t) :
    0 ≤ (if t > 0 then (a : ℚ) / (t : ℚ) else 0)
      ∧ (if t > 0 then (a : ℚ) / (t : ℚ) else 0) ≤ 1 := by
  have haq : (0 : ℚ) ≤ (a : ℚ) := by exact_mod_cast ha
  have hatq : (a : ℚ) ≤ (t : ℚ) := by exact_mod_cast hat
  by_cases ht : t > 0
  · have htq : (0 : ℚ) < (t : ℚ) := by exact_mod_cast ht
    rw [if_pos ht]
    exact ⟨div_nonneg haq (le_of_lt htq), (div_le_one htq).mpr hatq⟩
  · rw [if_neg ht]
    exact ⟨le_refl 0, zero_le_one⟩

theorem floatQuotient_in_unit (rnd : ℚ → ℚ) (hr : FloatRounding rnd) (a t : Int)
    (ha : 0 ≤ a) (hat : a ≤ t) (ht : 0 < t) :
    0 ≤ floatQuotient rnd a t ∧ floatQuotient rnd a t ≤ 1 := by
  have haq : (0 : ℚ) ≤ (a : ℚ) := by exact_mod_cast ha
  have hatq : (a : ℚ) ≤ (t : ℚ) := by exact_mod_cast hat
  have htq : (1 : ℚ) ≤ (t : ℚ) := by exact_mod_cast ht
  have h0a : 0 ≤ rnd (a : ℚ) := by
    have := hr.mono 0 (a : ℚ) haq
    rwa [hr.zero] at this
  have hat2 : rnd (a : ℚ) ≤ rnd (t : ℚ) := hr.mono _ _ hatq
  have h1t : 1 ≤ rnd (t : ℚ) := by
    have := hr.mono 1 (t : ℚ) htq
    rwa [hr.one] at this
  have htpos : 0 < rnd (t : ℚ) := lt_of_lt_of_le zero_lt_one h1t
  have hq0 : 0 ≤ rnd (a : ℚ) / rnd (t : ℚ) := div_nonneg h0a (le_of_lt htpos)
  have hq1 : rnd (a : ℚ) / rnd (t : ℚ) ≤ 1 := (div_le_one htpos).mpr hat2
  unfold floatQuotient
  constructor
  · have := hr.mono _ _ hq0
    rwa [hr.zero] at this
  · have := hr.mono _ _ hq1
    rwa [hr.one] at this

theorem floatRounding_id : FloatRounding id :=
  ⟨fun _ _ hxy => hxy, rfl, rfl⟩

theorem Processor.Utilization_second (h : Host) (line : String) (counters : List String)
    (user nice system idle iowait irq softirq steal : Int) (more : List Int)
    (prevTotal prevActive : Int)
    (hline : ReadLine h.stat = some line) (htok : SplitString line = "cpu" :: counters)
    (hlen : 10 ≤ counters.length)
    (hnum : stolAll counters = Except.ok
      (user :: nice :: system :: idle :: iowait :: irq :: softirq :: steal :: more))
    (hfitA : InLong (user + nice + system + irq + softirq + steal))
    (hfitT : InLong (user + nice + system + irq + softirq + steal + idle + iowait))
    (hfitDA : InLong (user + nice + system + irq + softirq + steal - prevActive))
    (hfitDT : InLong (user + nice + system + irq + softirq + steal + idle + iowait - prevTotal)) :
    Processor.Utilization h (SamplerState.mk prevTotal prevActive) = Except.ok
      (if user + nice + system + irq + softirq + steal + idle + iowait - prevTotal > 0
        then ((user + nice + system + irq + softirq + steal - prevActive : Int) : ℚ)
          / ((user + nice + system + irq + softirq + steal + idle + iowait - prevTotal : Int) : ℚ)
        else 0,
       SamplerState.mk (user + nice + system + irq + softirq + steal + idle + iowait)
         (user + nice + system + irq + softirq + steal)) := by
  have hcs := LinuxParser.CpuUtilization_of_line h line counters hline htok
  rw [Processor.Utilization_eq h _ counters user nice system idle iowait irq softirq steal more
    hcs hlen hnum]
  simp only [subLong, wrapLong_eq_self hfitA, wrapLong_eq_self hfitT, wrapLong_eq_self hfitDA,
    wrapLong_eq_self hfitDT]

/-- C21. Two consecutive successful samples with monotonic counters. The first
call of `Processor::Utilization()` reads a line `cpu` with at least 10 counters
that `std::stol` converts to non-negative numbers, the second call reads such a
line on which none of the eight counters the function uses is smaller than on
the first, and the sum of these eight counters fits in a `long`. Then both
calls return, the first stores its `(total, active)`, and the value `r` the
second returns is `activeDiff / totalDiff` when `totalDiff > 0` and 0 otherwise,
with `0 ≤ r ≤ 1`. The bounds also hold for the quotient as a `float` computes
it, with any rounding that is monotone and keeps 0 and 1. -/
theorem C21_ratio_in_unit_interval (h1 h2 : Host) (s0 : SamplerState) (line1 line2 : String)
    (counters1 counters2 : List String)
    (user1 nice1 system1 idle1 iowait1 irq1 softirq1 steal1 : Int) (more1 : List Int)
    (user2 nice2 system2 idle2 iowait2 irq2 softirq2 steal2 : Int) (more2 : List Int)
    (hline1 : ReadLine h1.stat = some line1) (htok1 : SplitString line1 = "cpu" :: counters1)
    (hlen1 : 10 ≤ counters1.length)
    (hnum1 : stolAll counters1 = Except.ok
      (user1 :: nice1 :: system1 :: idle1 :: iowait1 :: irq1 :: softirq1 :: steal1 :: more1))
    (hline2 : ReadLine h2.stat = some line2) (htok2 : SplitString line2 = "cpu" :: counters2)
    (hlen2 : 10 ≤ counters2.length)
    (hnum2 : stolAll counters2 = Except.ok
      (user2 :: nice2 :: system2 :: idle2 :: iowait2 :: irq2 :: softirq2 :: steal2 :: more2))
    (hnonneg : 0 ≤ user1 ∧ 0 ≤ nice1 ∧ 0 ≤ system1 ∧ 0 ≤ idle1 ∧ 0 ≤ iowait1 ∧ 0 ≤ irq1
      ∧ 0 ≤ softirq1 ∧ 0 ≤ steal1)
    (hmono : user1 ≤ user2 ∧ nice1 ≤ nice2 ∧ system1 ≤ system2 ∧ idle1 ≤ idle2
      ∧ iowait1 ≤ iowait2 ∧ irq1 ≤ irq2 ∧ softirq1 ≤ softirq2 ∧ steal1 ≤ steal2)
    (hfit : user2 + nice2 + system2 + irq2 + softirq2 + steal2 + idle2 + iowait2 ≤ LONG_MAX) :
    ∃ r1 r2 s2,
      Processor.Utilization h1 s0 = Except.ok (r1,
        SamplerState.mk (user1 + nice1 + system1 + irq1 + softirq1 + steal1 + idle1 + iowait1)
          (user1 + nice1 + system1 + irq1 + softirq1 + steal1))
      ∧ Processor.Utilization h2
          (SamplerState.mk (user1 + nice1 + system1 + irq1 + softirq1 + steal1 + idle1 + iowait1)
            (user1 + nice1 + system1 + irq1 + softirq1 + steal1)) = Except.ok (r2, s2)
      ∧ r2 = (if (user2 + nice2 + system2 + irq2 + softirq2 + steal2 + idle2 + iowait2)
                - (user1 + nice1 + system1 + irq1 + softirq1 + steal1 + idle1 + iowait1) > 0
              then (((user2 + nice2 + system2 + irq2 + softirq2 + steal2)
                  - (user1 + nice1 + system1 + irq1 + softirq1 + steal1) : Int) : ℚ)
                / (((user2 + nice2 + system2 + irq2 + softirq2 + steal2 + idle2 + iowait2)
                  - (user1 + nice1 + system1 + irq1 + softirq1 + steal1 + idle1 + iowait1)
                    : Int) : ℚ)
              else 0)
      ∧ 0 ≤ r2 ∧ r2 ≤ 1
      ∧ ∀ rnd, FloatRounding rnd →
          (user2 + nice2 + system2 + irq2 + softirq2 + steal2 + idle2 + iowait2)
            - (user1 + nice1 + system1 + irq1 + softirq1 + steal1 + idle1 + iowait1) > 0 →
          0 ≤ floatQuotient rnd
                ((user2 + nice2 + system2 + irq2 + softirq2 + steal2)
                  - (user1 + nice1 + system1 + irq1 + softirq1 + steal1))
                ((user2 + nice2 + system2 + irq2 + softirq2 + steal2 + idle2 + iowait2)
                  - (user1 + nice1 + system1 + irq1 + softirq1 + steal1 + idle1 + iowait1))
          ∧ floatQuotient rnd
                ((user2 + nice2 + system2 + irq2 + softirq2 + steal2)
                  - (user1 + nice1 + system1 + irq1 + softirq1 + steal1))
                ((user2 + nice2 + system2 + irq2 + softirq2 + steal2 + idle2 + iowait2)
                  - (user1 + nice1 + system1 + irq1 + softirq1 + steal1 + idle1 + iowait1))
              ≤ 1 := by
  obtain ⟨hu, hn, hs, hi, hw, hq, hf, ht⟩ := hnonneg
  obtain ⟨mu, mn, ms, mi, mw, mq, mf, mt⟩ := hmono
  have hda : 0 ≤ (user2 + nice2 + system2 + irq2 + softirq2 + steal2)
      - (user1 + nice1 + system1 + irq1 + softirq1 + steal1) := by omega
  have hdat : (user2 + nice2 + system2 + irq2 + softirq2 + steal2)
      - (user1 + nice1 + system1 + irq1 + softirq1 + steal1)
      ≤ (user2 + nice2 + system2 + irq2 + softirq2 + steal2 + idle2 + iowait2)
        - (user1 + nice1 + system1 + irq1 + softirq1 + steal1 + idle1 + iowait1) := by omega
  have hA1 : InLong (user1 + nice1 + system1 + irq1 + softirq1 + steal1) := by
    unfold InLong LONG_MIN LONG_MAX at *
    omega
  have hT1 : InLong (user1 + nice1 + system1 + irq1 + softirq1 + steal1 + idle1 + iowait1) := by
    unfold InLong LONG_MIN LONG_MAX at *
    omega
  have first := Processor.Utilization_eq h1 s0 counters1 user1 nice1 system1 idle1 iowait1
    irq1 softirq1 steal1 more1 (LinuxParser.CpuUtilization_of_line h1 line1 counters1 hline1 htok1)
    hlen1 hnum1
  rw [wrapLong_eq_self hA1, wrapLong_eq_self hT1] at first
  have second := Processor.Utilization_second h2 line2 counters2 user2 nice2 system2 idle2 iowait2
    irq2 softirq2 steal2 more2
    (user1 + nice1 + system1 + irq1 + softirq1 + steal1 + idle1 + iowait1)
    (user1 + nice1 + system1 + irq1 + softirq1 + steal1) hline2 htok2 hlen2 hnum2
    (by unfold InLong LONG_MIN LONG_MAX at *; omega)
    (by unfold InLong LONG_MIN LONG_MAX at *; omega)
    (by unfold InLong LONG_MIN LONG_MAX at *; omega)
    (by unfold InLong LONG_MIN LONG_MAX at *; omega)
  have hbound := ratio_in_unit _ _ hda hdat
  exact ⟨_, _, _, first, second, rfl, hbound.1, hbound.2,
    fun rnd hr hpos => floatQuotient_in_unit rnd hr _ _ hda hdat hpos⟩

/-- C21, at two consecutive readings: `cpu 4 0 2 10 3 0 1 0 0 0` (active 7,
total 20) and then `cpu 10 1 3 20 4 1 2 0 0 0` (active 17, total 41). The
second call returns 10/21, between 0 and 1. -/
theorem C21_ratio_in_unit_interval_witness :
    ∃ r1 r2 s2,
      Processor.Utilization (statHost "cpu  4 0 2 10 3 0 1 0 0 0\ncpu0 4 0 2 10 3 0 1 0 0 0\n")
          SamplerState.fresh = Except.ok (r1, SamplerState.mk 20 7)
      ∧ Processor.Utilization
          (statHost "cpu  10 1 3 20 4 1 2 0 0 0\ncpu0 10 1 3 20 4 1 2 0 0 0\n")
          (SamplerState.mk 20 7) = Except.ok (r2, s2)
      ∧ r2 = 10 / 21 ∧ 0 ≤ r2 ∧ r2 ≤ 1 := by
  obtain ⟨r1, r2, s2, hfirst, hsecond, hvalue, hlow, hhigh, _⟩ :=
    C21_ratio_in_unit_interval
      (statHost "cpu  4 0 2 10 3 0 1 0 0 0\ncpu0 4 0 2 10 3 0 1 0 0 0\n")
      (statHost "cpu  10 1 3 20 4 1 2 0 0 0\ncpu0 10 1 3 20 4 1 2 0 0 0\n")
      SamplerState.fresh "cpu  4 0 2 10 3 0 1 0 0 0" "cpu  10 1 3 20 4 1 2 0 0 0"
      ["4", "0", "2", "10", "3", "0", "1", "0", "0", "0"]
      ["10", "1", "3", "20", "4", "1", "2", "0", "0", "0"]
      4 0 2 10 3 0 1 0 [0, 0] 10 1 3 20 4 1 2 0 [0, 0]
      (by decide) (by decide) (by decide) (by decide) (by decide) (by decide) (by decide)
      (by decide) (by decide) (by decide) (by decide)
  refine ⟨r1, r2, s2, hfirst, hsecond, ?_, hlow, hhigh⟩
  rw [hvalue]
  norm_num

/-! ## The ordering of the process view -/

end Htop
